import Mathlib

/-! The state-diffing G-code emitter of gocnc, `vm.Export`.

A shallow embedding of `src/vm/export.go` (`func (vm *Machine) Export()`), followed by
theorems about the emitted document.

Conventions of the embedding.

* `float64` values are embedded by their numeric value in `ℚ`: the traces consumed by
  `Export` carry finite numbers, and on finite floats Go's `!=` is inequality of values.
  The only conversion in `Export`, `float64(pos.rot)` of line 142, is `float64OfInt`, which
  rounds an `int` to a 53-bit significand as Go does.
* The Go locals of `Export` (`lastFeedrate`, ..., `doc`) are the fields of `ExportState`;
  the body of the `for` loop is `exportStep`, and `Export` folds it over `vm.posStack`.
* Every `if` of the source is an `if` of the embedding, in the same order.
-/

namespace Gocnc

/-! ## Data model -/

/-- Modelled from the spec: the motion-mode enumerants `moveModeInitial`, `moveModeRapid`,
`moveModeLinear`, `moveModeCWArc`, `moveModeCCWArc` are declared outside `src/`.
`moveModeOther` stands for every value of the underlying integer type that is none of the
five constants. -/
inductive MoveMode where
  | moveModeInitial
  | moveModeRapid
  | moveModeLinear
  | moveModeCWArc
  | moveModeCCWArc
  | moveModeOther
  deriving DecidableEq

/-- Modelled from the spec: the plane enumerants `planeXY`, `planeXZ`, `planeYZ` are declared
outside `src/`. `planeOther` stands for every value that is none of the three constants. -/
inductive MovePlane where
  | planeXY
  | planeXZ
  | planeYZ
  | planeOther
  deriving DecidableEq

open MoveMode MovePlane

/-- Modelled from the spec: the struct behind `pos.state` (MachineState of the data model),
with the field names `Export` reads. -/
structure State where
  feedrate : ℚ
  spindleSpeed : ℚ
  moveMode : MoveMode
  movePlane : MovePlane
  spindleEnabled : Bool
  spindleClockwise : Bool
  floodCoolant : Bool
  mistCoolant : Bool
  deriving DecidableEq

/-- Modelled from the spec: the element type of `vm.posStack` (PositionRecord of the data
model), with the field names `Export` reads; `rot` is a Go `int`. -/
structure Position where
  state : State
  x : ℚ
  y : ℚ
  z : ℚ
  i : ℚ
  j : ℚ
  k : ℚ
  rot : Int
  deriving DecidableEq

/-- The part of `Machine` that `Export` reads. -/
structure Machine where
  posStack : List Position

/-- Modelled from the spec: `gcode.Node`, an instruction token. `Word` is `gcode.Word{c, v}`
(a letter-coded numeric command), `Comment` is `gcode.Comment{text, flag}`. -/
inductive Node where
  | Word (Address : Char) (Command : ℚ)
  | Comment (Content : String) (EOL : Bool)
  deriving DecidableEq

/-- Modelled from the spec: `gcode.Block`, an instruction group: an ordered sequence of
tokens. -/
structure Block where
  Nodes : List Node
  deriving DecidableEq

/-- Modelled from the spec: `gcode.Document`, an ordered sequence of instruction groups. -/
structure Document where
  Blocks : List Block
  deriving DecidableEq

/-- Modelled from the spec: `(*gcode.Block).AppendNode` puts a token at the end of a
group. -/
def Block.AppendNode (b : Block) (n : Node) : Block :=
  { Nodes := b.Nodes ++ [n] }

/-- Modelled from the spec: `(*gcode.Document).AppendBlock` puts a group at the end of the
document (the document is append-only during assembly). -/
def Document.AppendBlock (d : Document) (b : Block) : Document :=
  { Blocks := d.Blocks ++ [b] }

/-! ## `Export` -/

/-- The locals declared in the `var ( ... )` of `Export` (lines 11-16). -/
structure ExportState where
  lastFeedrate : ℚ
  lastSpindleSpeed : ℚ
  lastX : ℚ
  lastY : ℚ
  lastZ : ℚ
  spindleEnabled : Bool
  spindleClockwise : Bool
  mistCoolant : Bool
  floodCoolant : Bool
  lastMoveMode : ℚ
  lastMovePlane : ℚ
  doc : Document
  deriving DecidableEq

/-- Go zero values of the locals. -/
def ExportState.zero : ExportState :=
  { lastFeedrate := 0, lastSpindleSpeed := 0, lastX := 0, lastY := 0, lastZ := 0,
    spindleEnabled := false, spindleClockwise := false,
    mistCoolant := false, floodCoolant := false,
    lastMoveMode := 0, lastMovePlane := 0, doc := { Blocks := [] } }

/-- The closure `shortBlock` (lines 18-22): a fresh block holding `n`, appended to `doc`. -/
def shortBlock (st : ExportState) (n : Node) : ExportState :=
  let block : Block := { Nodes := [] }
  let block := block.AppendNode n
  { st with doc := st.doc.AppendBlock block }

/-- Lines 24-31: the comment block and the header block. -/
def exportInit : ExportState :=
  let st := shortBlock ExportState.zero (Node.Comment "Exported by gocnc/vm" false)
  let headerBlock : Block := { Nodes := [] }
  let headerBlock := headerBlock.AppendNode (Node.Word 'G' 21)
  let headerBlock := headerBlock.AppendNode (Node.Word 'G' 90)
  let headerBlock := headerBlock.AppendNode (Node.Word 'G' 94)
  { st with doc := st.doc.AppendBlock headerBlock }

/-- Lines 37-49, the value of `moveMode` after the first `switch`; the local starts at 0 and
no case assigns it for `moveModeInitial` (which leaves the iteration) or an unlisted value. -/
def moveModeCode : MoveMode → ℚ
  | moveModeInitial => 0
  | moveModeRapid => 0
  | moveModeLinear => 1
  | moveModeCWArc => 2
  | moveModeCCWArc => 3
  | moveModeOther => 0

/-- Lines 51-59, the value of `movePlane` after the second `switch`; 0 for an unlisted
value. -/
def movePlaneCode : MovePlane → ℚ
  | planeXY => 17
  | planeXZ => 18
  | planeYZ => 19
  | planeOther => 0

/-- Lines 61-72: handle spindle. -/
def handleSpindle (s : State) (st : ExportState) : ExportState :=
  if s.spindleEnabled ≠ st.spindleEnabled ∨ s.spindleClockwise ≠ st.spindleClockwise then
    let st :=
      if s.spindleEnabled = true ∧ s.spindleClockwise = true then
        shortBlock st (Node.Word 'M' 3)
      else if s.spindleEnabled = true ∧ ¬ s.spindleClockwise = true then
        shortBlock st (Node.Word 'M' 4)
      else if ¬ s.spindleEnabled = true then
        shortBlock st (Node.Word 'M' 5)
      else st
    { st with spindleEnabled := s.spindleEnabled, spindleClockwise := s.spindleClockwise,
              lastMoveMode := -1 }
  else st

/-- Lines 74-88: handle coolant. The locals `floodCoolant` and `mistCoolant` are read here
and assigned nowhere in `Export`. -/
def handleCoolant (s : State) (st : ExportState) : ExportState :=
  if s.floodCoolant ≠ st.floodCoolant ∨ s.mistCoolant ≠ st.mistCoolant then
    let st :=
      if (st.floodCoolant = true ∧ s.floodCoolant = false) ∨
          (st.mistCoolant = true ∧ s.mistCoolant = false) then
        shortBlock st (Node.Word 'M' 9)
      else st
    let st :=
      if s.floodCoolant = true then shortBlock st (Node.Word 'M' 8)
      else if s.mistCoolant = true then shortBlock st (Node.Word 'M' 7)
      else st
    { st with lastMoveMode := -1 }
  else st

/-- Lines 90-100: handle feedrate and spindle speed. -/
def handleFeedSpeed (s : State) (st : ExportState) : ExportState :=
  if s.moveMode ≠ moveModeRapid then
    let st :=
      if s.feedrate ≠ st.lastFeedrate then
        { shortBlock st (Node.Word 'F' s.feedrate) with lastFeedrate := s.feedrate }
      else st
    let st :=
      if s.spindleSpeed ≠ st.lastSpindleSpeed then
        { shortBlock st (Node.Word 'S' s.spindleSpeed) with lastSpindleSpeed := s.spindleSpeed }
      else st
    st
  else st

/-- Lines 104-108: handle move plane. The pair is the locals and `moveBlock`. -/
def handleMovePlane (movePlane : ℚ) (p : ExportState × Block) : ExportState × Block :=
  if movePlane ≠ p.1.lastMovePlane then
    ({ p.1 with lastMovePlane := movePlane }, p.2.AppendNode (Node.Word 'G' movePlane))
  else p

/-- Lines 110-114: handle move mode. -/
def handleMoveMode (s : State) (moveMode : ℚ) (p : ExportState × Block) :
    ExportState × Block :=
  if s.moveMode = moveModeCWArc ∨ s.moveMode = moveModeCCWArc ∨ moveMode ≠ p.1.lastMoveMode then
    ({ p.1 with lastMoveMode := moveMode }, p.2.AppendNode (Node.Word 'G' moveMode))
  else p

/-- Lines 116-128: handle move. -/
def handleMove (pos : Position) (p : ExportState × Block) : ExportState × Block :=
  let p :=
    if pos.x ≠ p.1.lastX then
      ({ p.1 with lastX := pos.x }, p.2.AppendNode (Node.Word 'X' pos.x))
    else p
  let p :=
    if pos.y ≠ p.1.lastY then
      ({ p.1 with lastY := pos.y }, p.2.AppendNode (Node.Word 'Y' pos.y))
    else p
  let p :=
    if pos.z ≠ p.1.lastZ then
      ({ p.1 with lastZ := pos.z }, p.2.AppendNode (Node.Word 'Z' pos.z))
    else p
  p

/-- Number of low bits of `a` that do not fit a 53-bit significand: the least `s` with
`a / 2 ^ s < 2 ^ 53`, searched with `fuel` halvings. -/
def excessBits : Nat → Nat → Nat
  | 0, _ => 0
  | fuel + 1, a => if a < 2 ^ 53 then 0 else excessBits fuel (a / 2) + 1

/-- The Go conversion `float64(n)` of an `int` (line 142): the nearest number with a 53-bit
significand, ties to the even significand. It is `n` itself up to magnitude `2 ^ 53`; a Go
`int` has at most 64 bits, far below the range where `float64` overflows. -/
def float64OfInt (n : Int) : ℚ :=
  let a := n.natAbs
  let s := excessBits a a
  let q := a / 2 ^ s
  let rem := a % 2 ^ s
  let up := if 2 * rem > 2 ^ s ∨ (2 * rem = 2 ^ s ∧ q % 2 = 1) then 1 else 0
  let m := (q + up) * 2 ^ s
  if n < 0 then -(m : ℚ) else (m : ℚ)

/-- Lines 130-144: handle arc; only `moveBlock` changes. -/
def handleArc (pos : Position) (moveBlock : Block) : Block :=
  if pos.state.moveMode = moveModeCWArc ∨ pos.state.moveMode = moveModeCCWArc then
    let moveBlock := if pos.i ≠ 0 then moveBlock.AppendNode (Node.Word 'I' pos.i) else moveBlock
    let moveBlock := if pos.j ≠ 0 then moveBlock.AppendNode (Node.Word 'J' pos.j) else moveBlock
    let moveBlock := if pos.k ≠ 0 then moveBlock.AppendNode (Node.Word 'K' pos.k) else moveBlock
    let moveBlock :=
      if pos.rot ≠ 1 then moveBlock.AppendNode (Node.Word 'P' (float64OfInt pos.rot)) else moveBlock
    moveBlock
  else moveBlock

/-- Lines 146-149: put on slice. -/
def putOnSlice (st : ExportState) (moveBlock : Block) : ExportState :=
  if moveBlock.Nodes.length > 0 then { st with doc := st.doc.AppendBlock moveBlock } else st

/-- The `moveBlock` of one iteration together with the locals after line 144. -/
def buildMoveBlock (pos : Position) (st : ExportState) : ExportState × Block :=
  let p : ExportState × Block := (st, { Nodes := [] })
  let p := handleMovePlane (movePlaneCode pos.state.movePlane) p
  let p := handleMoveMode pos.state (moveModeCode pos.state.moveMode) p
  let p := handleMove pos p
  (p.1, handleArc pos p.2)

/-- One iteration of the loop of lines 33-150. -/
def exportStep (st : ExportState) (pos : Position) : ExportState :=
  let s := pos.state
  if s.moveMode = moveModeInitial then st
  else
    let st := handleSpindle s st
    let st := handleCoolant s st
    let st := handleFeedSpeed s st
    let p := buildMoveBlock pos st
    putOnSlice p.1 p.2

/-- The locals after the loop has run over `trace`. -/
def exportLoop (trace : List Position) : ExportState :=
  trace.foldl exportStep exportInit

/-- The method `Export` (lines 10-152). -/
def Machine.Export (vm : Machine) : Document :=
  (exportLoop vm.posStack).doc

/-- `Export` of the machine whose trace is `trace`. -/
def Export (trace : List Position) : Document :=
  Machine.Export { posStack := trace }

/-- The groups `Export` emits for the record `r` that follows the records `pre`: the groups
of `Export (pre ++ [r])` after those of `Export pre`. -/
def emittedFor (pre : List Position) (r : Position) : List Block :=
  (Export (pre ++ [r])).Blocks.drop (Export pre).Blocks.length


/-! ## Closed form of one iteration

The definitions below name the pieces of what one iteration appends to `doc`; the theorem
`exportStep_eq` shows that `exportStep` computes exactly them. -/

/-- The condition of line 62. -/
def spindleChanged (s : State) (st : ExportState) : Prop :=
  s.spindleEnabled ≠ st.spindleEnabled ∨ s.spindleClockwise ≠ st.spindleClockwise

instance (s : State) (st : ExportState) : Decidable (spindleChanged s st) := by
  unfold spindleChanged; infer_instance

/-- The condition of line 75. -/
def coolantChanged (s : State) (st : ExportState) : Prop :=
  s.floodCoolant ≠ st.floodCoolant ∨ s.mistCoolant ≠ st.mistCoolant

instance (s : State) (st : ExportState) : Decidable (coolantChanged s st) := by
  unfold coolantChanged; infer_instance

/-- The condition of lines 111 and 131 on the record's mode. -/
def isArc (m : MoveMode) : Prop := m = moveModeCWArc ∨ m = moveModeCCWArc

instance (m : MoveMode) : Decidable (isArc m) := by
  unfold isArc; infer_instance

/-- A group holding one token, as `shortBlock` builds it. -/
def single (n : Node) : Block := { Nodes := [n] }

/-- The number of the spindle command chosen in lines 63-69. -/
def spindleCode (s : State) : ℚ :=
  if s.spindleEnabled = true then (if s.spindleClockwise = true then 3 else 4) else 5

/-- Groups appended by lines 61-72. -/
def spindleGroups (s : State) (st : ExportState) : List Block :=
  if spindleChanged s st then [single (Node.Word 'M' (spindleCode s))] else []

/-- Groups appended by lines 74-88. -/
def coolantGroups (s : State) (st : ExportState) : List Block :=
  if coolantChanged s st then
    (if (st.floodCoolant = true ∧ s.floodCoolant = false) ∨
        (st.mistCoolant = true ∧ s.mistCoolant = false) then [single (Node.Word 'M' 9)] else [])
    ++ (if s.floodCoolant = true then [single (Node.Word 'M' 8)]
        else if s.mistCoolant = true then [single (Node.Word 'M' 7)] else [])
  else []

/-- Group appended by lines 92-95. -/
def feedGroups (s : State) (st : ExportState) : List Block :=
  if s.moveMode ≠ moveModeRapid ∧ s.feedrate ≠ st.lastFeedrate then
    [single (Node.Word 'F' s.feedrate)] else []

/-- Group appended by lines 96-99. -/
def speedGroups (s : State) (st : ExportState) : List Block :=
  if s.moveMode ≠ moveModeRapid ∧ s.spindleSpeed ≠ st.lastSpindleSpeed then
    [single (Node.Word 'S' s.spindleSpeed)] else []

/-- The value of `lastMoveMode` when line 111 is reached. -/
def modalMoveMode (s : State) (st : ExportState) : ℚ :=
  if spindleChanged s st ∨ coolantChanged s st then -1 else st.lastMoveMode

/-- Token appended to `moveBlock` by lines 105-108. -/
def planeTokens (s : State) (st : ExportState) : List Node :=
  if movePlaneCode s.movePlane ≠ st.lastMovePlane then
    [Node.Word 'G' (movePlaneCode s.movePlane)] else []

/-- Token appended to `moveBlock` by lines 111-114. -/
def modeTokens (s : State) (st : ExportState) : List Node :=
  if isArc s.moveMode ∨ moveModeCode s.moveMode ≠ modalMoveMode s st then
    [Node.Word 'G' (moveModeCode s.moveMode)] else []

/-- Tokens appended to `moveBlock` by lines 117-128. -/
def coordTokens (pos : Position) (st : ExportState) : List Node :=
  (if pos.x ≠ st.lastX then [Node.Word 'X' pos.x] else [])
  ++ (if pos.y ≠ st.lastY then [Node.Word 'Y' pos.y] else [])
  ++ (if pos.z ≠ st.lastZ then [Node.Word 'Z' pos.z] else [])

/-- Tokens appended to `moveBlock` by lines 131-144. -/
def arcTokens (pos : Position) : List Node :=
  if isArc pos.state.moveMode then
    (if pos.i ≠ 0 then [Node.Word 'I' pos.i] else [])
    ++ (if pos.j ≠ 0 then [Node.Word 'J' pos.j] else [])
    ++ (if pos.k ≠ 0 then [Node.Word 'K' pos.k] else [])
    ++ (if pos.rot ≠ 1 then [Node.Word 'P' (float64OfInt pos.rot)] else [])
  else []

/-- The tokens of `moveBlock` when line 147 is reached. -/
def moveTokens (pos : Position) (st : ExportState) : List Node :=
  planeTokens pos.state st ++ modeTokens pos.state st ++ coordTokens pos st ++ arcTokens pos

/-- Group appended by lines 146-149. -/
def moveGroups (pos : Position) (st : ExportState) : List Block :=
  if moveTokens pos st = [] then [] else [{ Nodes := moveTokens pos st }]

/-- The standalone groups of one iteration (lines 61-100). -/
def modalGroups (pos : Position) (st : ExportState) : List Block :=
  spindleGroups pos.state st ++ coolantGroups pos.state st
    ++ feedGroups pos.state st ++ speedGroups pos.state st

/-- Everything one iteration appends to `doc` for a record that is not skipped. -/
def stepGroups (pos : Position) (st : ExportState) : List Block :=
  modalGroups pos st ++ moveGroups pos st

/-- The locals after one iteration for a record that is not skipped. -/
def stepState (st : ExportState) (pos : Position) : ExportState :=
  { lastFeedrate :=
      if pos.state.moveMode ≠ moveModeRapid then pos.state.feedrate else st.lastFeedrate
    lastSpindleSpeed :=
      if pos.state.moveMode ≠ moveModeRapid then pos.state.spindleSpeed else st.lastSpindleSpeed
    lastX := pos.x
    lastY := pos.y
    lastZ := pos.z
    spindleEnabled := pos.state.spindleEnabled
    spindleClockwise := pos.state.spindleClockwise
    mistCoolant := st.mistCoolant
    floodCoolant := st.floodCoolant
    lastMoveMode := moveModeCode pos.state.moveMode
    lastMovePlane := movePlaneCode pos.state.movePlane
    doc := { Blocks := st.doc.Blocks ++ stepGroups pos st } }

/-! ## Replaying a document on a controller -/

/-- A controller position `(x, y, z)`. -/
abbrev Point := ℚ × ℚ × ℚ

/-- The effect of one token on the controller position: an `X`, `Y` or `Z` word sets that
axis, every other token leaves the position unchanged. -/
def replayNode (p : Point) : Node → Point
  | Node.Word c v =>
    if c = 'X' then (v, p.2.1, p.2.2)
    else if c = 'Y' then (p.1, v, p.2.2)
    else if c = 'Z' then (p.1, p.2.1, v)
    else p
  | Node.Comment _ _ => p

/-- Replay of the groups `bs`, token by token, from the position `p`. -/
def replayFrom (p : Point) (bs : List Block) : Point :=
  bs.foldl (fun q b => b.Nodes.foldl replayNode q) p

/-- Replay of a document on a controller that starts at `(0, 0, 0)`. -/
def replay (d : Document) : Point :=
  replayFrom (0, 0, 0) d.Blocks

/-- The records of a trace that are not skipped by line 39. -/
def moves (trace : List Position) : List Position :=
  trace.filter (fun r => decide (r.state.moveMode ≠ moveModeInitial))

/-- Coordinates of the last record of `trace` whose mode is not `moveModeInitial`, and
`(0, 0, 0)` when there is none. -/
def lastMovePoint (trace : List Position) : Point :=
  match (moves trace).getLast? with
  | none => (0, 0, 0)
  | some r => (r.x, r.y, r.z)

/-- The fixed preamble: the comment group, then the header group. -/
def preamble : Document :=
  { Blocks :=
      [{ Nodes := [Node.Comment "Exported by gocnc/vm" false] },
       { Nodes := [Node.Word 'G' 21, Node.Word 'G' 90, Node.Word 'G' 94] }] }

/-- A record with every number 0, one turn, plane XY, spindle and coolant off, of the given
mode: the base of the concrete traces used below. -/
def rec0 (m : MoveMode) : Position :=
  { state :=
      { feedrate := 0, spindleSpeed := 0, moveMode := m, movePlane := planeXY,
        spindleEnabled := false, spindleClockwise := false,
        floodCoolant := false, mistCoolant := false }
    x := 0, y := 0, z := 0, i := 0, j := 0, k := 0, rot := 1 }

/-- A Linear move to `x = 10` at feedrate 100, spindle and coolant off. -/
def linearMove : Position :=
  { rec0 moveModeLinear with
    state := { (rec0 moveModeLinear).state with feedrate := 100 }
    x := 10 }

/-- The record `linearMove` with flood coolant on. -/
def floodMove : Position :=
  { linearMove with state := { linearMove.state with floodCoolant := true } }

/-- The record `linearMove` with mist coolant on. -/
def mistMove : Position :=
  { linearMove with state := { linearMove.state with mistCoolant := true } }

/-- The record `linearMove` with the spindle on, clockwise. -/
def spindleMove : Position :=
  { linearMove with
    state := { linearMove.state with spindleEnabled := true, spindleClockwise := true } }

/-- A clockwise arc to `x = 10` with centre offset `j = 5`, one turn. -/
def arcMove : Position :=
  { rec0 moveModeCWArc with
    state := { (rec0 moveModeCWArc).state with feedrate := 100 }
    x := 10
    j := 5 }

/-- The trace of the end-to-end example: Initial; Rapid at the origin with feed 0; Linear to
`x = 10` with feed 100, spindle on clockwise at speed 1000 (plane XY, no coolant). -/
def exampleTrace : List Position :=
  [rec0 moveModeInitial,
   rec0 moveModeRapid,
   { rec0 moveModeLinear with
     state :=
       { (rec0 moveModeLinear).state with
         feedrate := 100, spindleSpeed := 1000,
         spindleEnabled := true, spindleClockwise := true }
     x := 10 }]

/-- A standalone modal command: a group holding exactly one `M`, `F` or `S` word. -/
def IsStandalone (b : Block) : Prop :=
  ∃ c v, b.Nodes = [Node.Word c v] ∧ (c = 'M' ∨ c = 'F' ∨ c = 'S')

/-- An arc-parameter token: a word with letter `I`, `J`, `K` or `P`. -/
def isArcParam : Node → Bool
  | Node.Word c _ => decide (c = 'I' ∨ c = 'J' ∨ c = 'K' ∨ c = 'P')
  | Node.Comment _ _ => false

/-! ## Reference values taken from the trace -/

/-- The pair `(spindleEnabled, spindleClockwise)` of the last record of `pre` whose mode is
not `moveModeInitial`, and `(false, false)` when there is none. -/
def lastSpindle (pre : List Position) : Bool × Bool :=
  match (moves pre).getLast? with
  | none => (false, false)
  | some p => (p.state.spindleEnabled, p.state.spindleClockwise)

/-- The records of a trace whose mode is neither `moveModeInitial` nor `moveModeRapid`. -/
def feedMoves (trace : List Position) : List Position :=
  trace.filter (fun r =>
    decide (r.state.moveMode ≠ moveModeInitial ∧ r.state.moveMode ≠ moveModeRapid))

/-- The feedrate of the last record of `pre` that is neither Initial nor Rapid, and 0 when
there is none. -/
def lastFeed (pre : List Position) : ℚ :=
  match (feedMoves pre).getLast? with
  | none => 0
  | some p => p.state.feedrate

/-- The spindle speed of the last record of `pre` that is neither Initial nor Rapid, and 0
when there is none. -/
def lastSpeed (pre : List Position) : ℚ :=
  match (feedMoves pre).getLast? with
  | none => 0
  | some p => p.state.spindleSpeed

/-- A spindle command: the word `M3`, `M4` or `M5`. -/
def isSpindleWord : Node → Bool
  | Node.Word c v => decide (c = 'M' ∧ (v = 3 ∨ v = 4 ∨ v = 5))
  | Node.Comment _ _ => false

/-- A feedrate command: a word with letter `F`. -/
def isFeedWord : Node → Bool
  | Node.Word c _ => decide (c = 'F')
  | Node.Comment _ _ => false

/-- A spindle-speed command: a word with letter `S`. -/
def isSpeedWord : Node → Bool
  | Node.Word c _ => decide (c = 'S')
  | Node.Comment _ _ => false

/-- The letter of a word; `none` for a comment. -/
def letter : Node → Option Char
  | Node.Word c _ => some c
  | Node.Comment _ _ => none

/-- The `moveBlock` built by the iteration that processes the record `r` after the records
`pre` (the local of line 102 when line 147 is reached). -/
def moveBlockOf (pre : List Position) (r : Position) : Block :=
  (buildMoveBlock r
    (handleFeedSpeed r.state
      (handleCoolant r.state (handleSpindle r.state (exportLoop pre))))).2

/-- The record `linearMove` with feedrate 200. -/
def fasterMove : Position :=
  { linearMove with state := { linearMove.state with feedrate := 200 } }

/-- A move to `x = 20` whose motion mode is none of the five constants. -/
def otherMove : Position :=
  { linearMove with
    state := { linearMove.state with moveMode := moveModeOther }
    x := 20 }

/-- A Linear move to `x = 20` whose plane is none of the three constants. -/
def otherPlaneMove : Position :=
  { linearMove with
    state := { linearMove.state with movePlane := planeOther }
    x := 20 }

/-- The arc `arcMove` with the turn count `2 ^ 53 + 1`, which `float64` cannot hold. -/
def bigArc : Position :=
  { arcMove with rot := 9007199254740993 }

/-- Numeric mode of the last record of `pre` whose mode is not `moveModeInitial`, and 0 when
there is none. -/
def lastModeCode (pre : List Position) : ℚ :=
  match (moves pre).getLast? with
  | none => 0
  | some p => moveModeCode p.state.moveMode

/-- Numeric plane of the last record of `pre` whose mode is not `moveModeInitial`, and 0 when
there is none. -/
def lastPlaneCode (pre : List Position) : ℚ :=
  match (moves pre).getLast? with
  | none => 0
  | some p => movePlaneCode p.state.movePlane

/-! ## The closed form is what the loop body computes -/

theorem handleSpindle_eq (s : State) (st : ExportState) :
    handleSpindle s st =
      { st with
        spindleEnabled := s.spindleEnabled
        spindleClockwise := s.spindleClockwise
        lastMoveMode := if spindleChanged s st then -1 else st.lastMoveMode
        doc := { Blocks := st.doc.Blocks ++ spindleGroups s st } } := by
  obtain ⟨a, b, c, d, e, se, sc, m, f, lm, lp, ⟨doc⟩⟩ := st
  obtain ⟨fr, ss, mm, mp, e1, c1, f1, m1⟩ := s
  cases se <;> cases sc <;> cases e1 <;> cases c1 <;>
    simp [handleSpindle, spindleChanged, spindleGroups, spindleCode, shortBlock,
      Block.AppendNode, Document.AppendBlock, single]

theorem handleCoolant_eq (s : State) (st : ExportState) :
    handleCoolant s st =
      { st with
        lastMoveMode := if coolantChanged s st then -1 else st.lastMoveMode
        doc := { Blocks := st.doc.Blocks ++ coolantGroups s st } } := by
  obtain ⟨a, b, c, d, e, se, sc, m, f, lm, lp, ⟨doc⟩⟩ := st
  obtain ⟨fr, ss, mm, mp, e1, c1, f1, m1⟩ := s
  cases m <;> cases f <;> cases f1 <;> cases m1 <;>
    simp [handleCoolant, coolantChanged, coolantGroups, shortBlock,
      Block.AppendNode, Document.AppendBlock, single]

theorem handleFeedSpeed_eq (s : State) (st : ExportState) :
    handleFeedSpeed s st =
      { st with
        lastFeedrate := if s.moveMode ≠ moveModeRapid then s.feedrate else st.lastFeedrate
        lastSpindleSpeed :=
          if s.moveMode ≠ moveModeRapid then s.spindleSpeed else st.lastSpindleSpeed
        doc := { Blocks := st.doc.Blocks ++ (feedGroups s st ++ speedGroups s st) } } := by
  obtain ⟨a, b, c, d, e, se, sc, m, f, lm, lp, ⟨doc⟩⟩ := st
  by_cases hr : s.moveMode = moveModeRapid
  · simp [handleFeedSpeed, feedGroups, speedGroups, hr]
  · by_cases hf : s.feedrate = a <;> by_cases hs : s.spindleSpeed = b <;>
      simp [handleFeedSpeed, feedGroups, speedGroups, hr, hf, hs, shortBlock,
        Block.AppendNode, Document.AppendBlock, single]

theorem handleMovePlane_eq (movePlane : ℚ) (st : ExportState) (b : Block) :
    handleMovePlane movePlane (st, b) =
      ({ st with lastMovePlane := movePlane },
       { Nodes := b.Nodes ++
          (if movePlane ≠ st.lastMovePlane then [Node.Word 'G' movePlane] else []) }) := by
  obtain ⟨a, b1, c, d, e, se, sc, m, f, lm, lp, ⟨doc⟩⟩ := st
  by_cases h : movePlane = lp <;> simp [handleMovePlane, h, Block.AppendNode]

theorem handleMoveMode_eq (s : State) (moveMode : ℚ) (st : ExportState) (b : Block) :
    handleMoveMode s moveMode (st, b) =
      ({ st with lastMoveMode := moveMode },
       { Nodes := b.Nodes ++
          (if isArc s.moveMode ∨ moveMode ≠ st.lastMoveMode then [Node.Word 'G' moveMode]
           else []) }) := by
  obtain ⟨a, b1, c, d, e, se, sc, m, f, lm, lp, ⟨doc⟩⟩ := st
  by_cases h : moveMode = lm <;> by_cases h1 : s.moveMode = moveModeCWArc <;>
    by_cases h2 : s.moveMode = moveModeCCWArc <;>
    simp [handleMoveMode, isArc, h, h1, h2, Block.AppendNode]

theorem handleMove_eq (pos : Position) (st : ExportState) (b : Block) :
    handleMove pos (st, b) =
      ({ st with lastX := pos.x, lastY := pos.y, lastZ := pos.z },
       { Nodes := b.Nodes ++ coordTokens pos st }) := by
  obtain ⟨a, b1, c, d, e, se, sc, m, f, lm, lp, ⟨doc⟩⟩ := st
  by_cases hx : pos.x = c <;> by_cases hy : pos.y = d <;> by_cases hz : pos.z = e <;>
    simp [handleMove, coordTokens, hx, hy, hz, Block.AppendNode]

theorem handleArc_eq (pos : Position) (b : Block) :
    handleArc pos b = { Nodes := b.Nodes ++ arcTokens pos } := by
  by_cases h1 : pos.state.moveMode = moveModeCWArc <;>
    by_cases h2 : pos.state.moveMode = moveModeCCWArc <;>
    by_cases hi : pos.i = 0 <;> by_cases hj : pos.j = 0 <;> by_cases hk : pos.k = 0 <;>
    by_cases hr : pos.rot = 1 <;>
    simp [handleArc, arcTokens, isArc, h1, h2, hi, hj, hk, hr, Block.AppendNode]

theorem buildMoveBlock_eq (pos : Position) (st : ExportState) :
    buildMoveBlock pos st =
      ({ st with
          lastMovePlane := movePlaneCode pos.state.movePlane
          lastMoveMode := moveModeCode pos.state.moveMode
          lastX := pos.x
          lastY := pos.y
          lastZ := pos.z },
       { Nodes :=
          (if movePlaneCode pos.state.movePlane ≠ st.lastMovePlane then
              [Node.Word 'G' (movePlaneCode pos.state.movePlane)] else [])
          ++ (if isArc pos.state.moveMode ∨ moveModeCode pos.state.moveMode ≠ st.lastMoveMode
              then [Node.Word 'G' (moveModeCode pos.state.moveMode)] else [])
          ++ coordTokens pos st ++ arcTokens pos }) := by
  simp only [buildMoveBlock, handleMovePlane_eq, handleMoveMode_eq, handleMove_eq,
    handleArc_eq, coordTokens, List.nil_append, List.append_assoc]

theorem putOnSlice_eq (st : ExportState) (b : Block) :
    putOnSlice st b =
      { st with doc := { Blocks := st.doc.Blocks ++ (if b.Nodes = [] then [] else [b]) } } := by
  obtain ⟨nodes⟩ := b
  cases nodes <;> simp [putOnSlice, Document.AppendBlock]

theorem exportStep_eq (st : ExportState) (pos : Position) :
    exportStep st pos =
      if pos.state.moveMode = moveModeInitial then st else stepState st pos := by
  by_cases h : pos.state.moveMode = moveModeInitial
  · simp [exportStep, h]
  · have hm : (if coolantChanged pos.state st then (-1 : ℚ)
        else if spindleChanged pos.state st then -1 else st.lastMoveMode)
        = modalMoveMode pos.state st := by
      unfold modalMoveMode
      by_cases h1 : spindleChanged pos.state st <;> by_cases h2 : coolantChanged pos.state st <;>
        simp [h1, h2]
    simp only [exportStep, h, if_false, handleSpindle_eq, handleCoolant_eq,
      handleFeedSpeed_eq, buildMoveBlock_eq, putOnSlice_eq]
    simp only [stepState, stepGroups, modalGroups, moveGroups, moveTokens, planeTokens,
      modeTokens, coordTokens, coolantChanged, coolantGroups, feedGroups, speedGroups] at hm ⊢
    simp only [hm, List.append_assoc]

/-! ## The loop -/

theorem exportLoop_append (pre : List Position) (r : Position) :
    exportLoop (pre ++ [r]) = exportStep (exportLoop pre) r := by
  simp [exportLoop, List.foldl_append]

theorem exportLoop_append_move (pre : List Position) (r : Position)
    (h : r.state.moveMode ≠ moveModeInitial) :
    exportLoop (pre ++ [r]) = stepState (exportLoop pre) r := by
  rw [exportLoop_append, exportStep_eq, if_neg h]

theorem exportInit_doc : exportInit.doc = preamble := by
  rfl

/-- The groups emitted for a record are those of the closed form of its iteration. -/
theorem emittedFor_eq (pre : List Position) (r : Position) :
    emittedFor pre r =
      if r.state.moveMode = moveModeInitial then [] else stepGroups r (exportLoop pre) := by
  unfold emittedFor Export Machine.Export
  simp only [exportLoop_append, exportStep_eq]
  by_cases h : r.state.moveMode = moveModeInitial
  · simp [h]
  · simp [h, stepState]

/-- The document of a trace extended by one record is the document of the trace followed by
the groups emitted for that record. -/
theorem Export_append (pre : List Position) (r : Position) :
    (Export (pre ++ [r])).Blocks = (Export pre).Blocks ++ emittedFor pre r := by
  rw [emittedFor_eq]
  unfold Export Machine.Export
  simp only [exportLoop_append, exportStep_eq]
  by_cases h : r.state.moveMode = moveModeInitial
  · simp [h]
  · simp [h, stepState]

/-- The remembered coolant flags are never assigned: they keep their zero value. -/
theorem foldl_exportStep_coolant (trace : List Position) (st : ExportState) :
    (trace.foldl exportStep st).floodCoolant = st.floodCoolant ∧
      (trace.foldl exportStep st).mistCoolant = st.mistCoolant := by
  induction trace generalizing st with
  | nil => simp
  | cons r rest ih =>
    simp only [List.foldl_cons]
    rw [(ih _).1, (ih _).2, exportStep_eq]
    by_cases h : r.state.moveMode = moveModeInitial <;> simp [h, stepState]

theorem exportLoop_floodCoolant (trace : List Position) :
    (exportLoop trace).floodCoolant = false :=
  (foldl_exportStep_coolant trace exportInit).1

theorem exportLoop_mistCoolant (trace : List Position) :
    (exportLoop trace).mistCoolant = false :=
  (foldl_exportStep_coolant trace exportInit).2

theorem foldl_exportStep_moves (trace : List Position) (st : ExportState) :
    (moves trace).foldl exportStep st = trace.foldl exportStep st := by
  induction trace generalizing st with
  | nil => rfl
  | cons r rest ih =>
    by_cases h : r.state.moveMode = moveModeInitial
    · have : moves (r :: rest) = moves rest := by simp [moves, h]
      rw [this, ih, List.foldl_cons, exportStep_eq, if_pos h]
    · have : moves (r :: rest) = r :: moves rest := by simp [moves, h]
      rw [this, List.foldl_cons, List.foldl_cons]
      exact ih _

theorem moves_append (pre : List Position) (r : Position) :
    moves (pre ++ [r]) =
      if r.state.moveMode = moveModeInitial then moves pre else moves pre ++ [r] := by
  by_cases h : r.state.moveMode = moveModeInitial <;> simp [moves, h]

/-! ## Position replay -/

theorem replayFrom_append (p : Point) (a b : List Block) :
    replayFrom p (a ++ b) = replayFrom (replayFrom p a) b := by
  simp [replayFrom, List.foldl_append]

theorem replayFrom_modalGroups (p : Point) (r : Position) (st : ExportState) :
    replayFrom p (modalGroups r st) = p := by
  unfold modalGroups spindleGroups coolantGroups feedGroups speedGroups
  simp only [replayFrom_append]
  split_ifs <;> simp [replayFrom, single, replayNode]

theorem foldl_replayNode_planeTokens (p : Point) (s : State) (st : ExportState) :
    (planeTokens s st).foldl replayNode p = p := by
  unfold planeTokens
  split_ifs <;> simp [replayNode]

theorem foldl_replayNode_modeTokens (p : Point) (s : State) (st : ExportState) :
    (modeTokens s st).foldl replayNode p = p := by
  unfold modeTokens
  split_ifs <;> simp [replayNode]

theorem foldl_replayNode_arcTokens (p : Point) (r : Position) :
    (arcTokens r).foldl replayNode p = p := by
  unfold arcTokens
  split_ifs <;> simp [replayNode]

theorem foldl_replayNode_coordTokens (r : Position) (st : ExportState) :
    (coordTokens r st).foldl replayNode (st.lastX, st.lastY, st.lastZ) = (r.x, r.y, r.z) := by
  unfold coordTokens
  by_cases hx : r.x = st.lastX <;> by_cases hy : r.y = st.lastY <;>
    by_cases hz : r.z = st.lastZ <;> simp [replayNode, hx, hy, hz]

theorem foldl_replayNode_moveTokens (r : Position) (st : ExportState) :
    (moveTokens r st).foldl replayNode (st.lastX, st.lastY, st.lastZ) = (r.x, r.y, r.z) := by
  unfold moveTokens
  simp only [List.foldl_append, foldl_replayNode_planeTokens, foldl_replayNode_modeTokens,
    foldl_replayNode_coordTokens, foldl_replayNode_arcTokens]

theorem replayFrom_stepGroups (r : Position) (st : ExportState) :
    replayFrom (st.lastX, st.lastY, st.lastZ) (stepGroups r st) = (r.x, r.y, r.z) := by
  unfold stepGroups
  rw [replayFrom_append, replayFrom_modalGroups]
  have h := foldl_replayNode_moveTokens r st
  unfold moveGroups
  by_cases he : moveTokens r st = []
  · rw [he] at h
    simpa [he, replayFrom] using h
  · simpa [he, replayFrom] using h

/-- Replaying the document built so far gives the remembered coordinates. -/
theorem replay_exportLoop (trace : List Position) :
    replay (exportLoop trace).doc =
      ((exportLoop trace).lastX, (exportLoop trace).lastY, (exportLoop trace).lastZ) := by
  induction trace using List.reverseRecOn with
  | nil => simp [exportLoop, exportInit, shortBlock, ExportState.zero, replay, replayFrom,
      Document.AppendBlock, Block.AppendNode, replayNode]
  | append_singleton pre r ih =>
    rw [exportLoop_append, exportStep_eq]
    by_cases h : r.state.moveMode = moveModeInitial
    · simpa [h] using ih
    · simp only [h, if_false, stepState]
      unfold replay at ih ⊢
      rw [replayFrom_append, ih, replayFrom_stepGroups]

/-- The remembered coordinates are those of the last record that was not skipped. -/
theorem exportLoop_point (trace : List Position) :
    ((exportLoop trace).lastX, (exportLoop trace).lastY, (exportLoop trace).lastZ)
      = lastMovePoint trace := by
  induction trace using List.reverseRecOn with
  | nil => rfl
  | append_singleton pre r ih =>
    rw [exportLoop_append, exportStep_eq]
    by_cases h : r.state.moveMode = moveModeInitial
    · simp only [h, if_true, ih]
      simp [lastMovePoint, moves_append, h]
    · simp [h, stepState, lastMovePoint, moves_append]

/-- C1 (position replay). Replaying the document returned by `Export` on a controller that
starts at `(0, 0, 0)`, where each `X`/`Y`/`Z` token sets that axis and every other token
leaves the position unchanged, ends at the coordinates of the last record of the trace whose
mode is not Initial, and at `(0, 0, 0)` when the trace has no such record. -/
theorem position_replay (trace : List Position) :
    replay (Export trace) =
      match (trace.filter (fun r => decide (r.state.moveMode ≠ moveModeInitial))).getLast? with
      | none => (0, 0, 0)
      | some r => (r.x, r.y, r.z) := by
  have h := replay_exportLoop trace
  rw [exportLoop_point] at h
  exact h

/-! ## Skipped records and the preamble -/

theorem moves_eq_nil_of_initial (trace : List Position)
    (h : ∀ r ∈ trace, r.state.moveMode = moveModeInitial) : moves trace = [] := by
  simp only [moves, List.filter_eq_nil_iff]
  intro r hr
  simp [h r hr]

/-- C9 (initial-skip and preamble). For a trace consisting only of Initial-mode records
(the empty trace included), `Export` returns exactly the fixed preamble: one group holding
the identifying comment, then one group holding `G21`, `G90`, `G94` in that order. -/
theorem initial_only_preamble (trace : List Position)
    (h : ∀ r ∈ trace, r.state.moveMode = moveModeInitial) :
    Export trace =
      { Blocks :=
          [{ Nodes := [Node.Comment "Exported by gocnc/vm" false] },
           { Nodes := [Node.Word 'G' 21, Node.Word 'G' 90, Node.Word 'G' 94] }] } := by
  unfold Export Machine.Export exportLoop
  rw [← foldl_exportStep_moves, moves_eq_nil_of_initial trace h]
  rfl

/-- Witness of C9: a trace of two Initial-mode records. -/
theorem initial_only_preamble_witness :
    (∀ r ∈ [rec0 moveModeInitial, rec0 moveModeInitial], r.state.moveMode = moveModeInitial) ∧
    Export [rec0 moveModeInitial, rec0 moveModeInitial] =
      { Blocks :=
          [{ Nodes := [Node.Comment "Exported by gocnc/vm" false] },
           { Nodes := [Node.Word 'G' 21, Node.Word 'G' 90, Node.Word 'G' 94] }] } :=
  ⟨by decide, initial_only_preamble _ (by decide)⟩

/-- C10 (skip rule). Deleting all Initial-mode records of a trace, wherever they occur,
leaves the locals after the loop (the remembered emitted state and the document) unchanged,
so `Export` returns exactly the same document. -/
theorem skip_rule (trace : List Position) :
    exportLoop (trace.filter (fun r => decide (r.state.moveMode ≠ moveModeInitial)))
        = exportLoop trace ∧
    Export (trace.filter (fun r => decide (r.state.moveMode ≠ moveModeInitial)))
        = Export trace := by
  have h : exportLoop (moves trace) = exportLoop trace := foldl_exportStep_moves trace _
  exact ⟨h, congrArg ExportState.doc h⟩

/-! ## Redundancy elimination -/

/-- After a record that is not skipped, a record that repeats it, is not an arc and has both
coolant flags off appends nothing. -/
theorem stepGroups_repeat (st : ExportState) (a b : Position)
    (hst : st.floodCoolant = false ∧ st.mistCoolant = false)
    (hmode : b.state.moveMode = a.state.moveMode)
    (hplane : b.state.movePlane = a.state.movePlane)
    (hfeed : b.state.feedrate = a.state.feedrate)
    (hspeed : b.state.spindleSpeed = a.state.spindleSpeed)
    (hen : b.state.spindleEnabled = a.state.spindleEnabled)
    (hcw : b.state.spindleClockwise = a.state.spindleClockwise)
    (hflood : b.state.floodCoolant = false) (hmist : b.state.mistCoolant = false)
    (hx : b.x = a.x) (hy : b.y = a.y) (hz : b.z = a.z)
    (hcwarc : a.state.moveMode ≠ moveModeCWArc) (hccwarc : a.state.moveMode ≠ moveModeCCWArc) :
    stepGroups b (stepState st a) = [] := by
  have hsp : ¬ spindleChanged b.state (stepState st a) := by
    simp [spindleChanged, stepState, hen, hcw]
  have hco : ¬ coolantChanged b.state (stepState st a) := by
    simp [coolantChanged, stepState, hflood, hmist, hst.1, hst.2]
  have hmodal : modalGroups b (stepState st a) = [] := by
    unfold modalGroups spindleGroups coolantGroups feedGroups speedGroups
    rw [if_neg hsp, if_neg hco]
    by_cases hr : a.state.moveMode = moveModeRapid <;>
      simp [stepState, hmode, hfeed, hspeed, hr]
  have hmove : moveTokens b (stepState st a) = [] := by
    have hmm : modalMoveMode b.state (stepState st a) = moveModeCode a.state.moveMode := by
      unfold modalMoveMode
      rw [if_neg (not_or.mpr ⟨hsp, hco⟩)]
      rfl
    unfold moveTokens planeTokens modeTokens coordTokens arcTokens
    rw [hmm]
    simp [isArc, stepState, hmode, hplane, hx, hy, hz, hcwarc, hccwarc]
  simp [stepGroups, hmodal, moveGroups, hmove]

/-- C2 (redundancy elimination, amended). When a record `b` directly follows a record `a`
that is not Initial, the two agree in motion mode, plane, feedrate, spindle speed, spindle
enablement and direction, coolant flags and coordinates, the mode is not an arc and both
coolant flags are off, `Export` emits no group for `b`. -/
theorem redundancy_elimination (pre : List Position) (a b : Position)
    (ha : a.state.moveMode ≠ moveModeInitial)
    (hmode : b.state.moveMode = a.state.moveMode)
    (hplane : b.state.movePlane = a.state.movePlane)
    (hfeed : b.state.feedrate = a.state.feedrate)
    (hspeed : b.state.spindleSpeed = a.state.spindleSpeed)
    (hen : b.state.spindleEnabled = a.state.spindleEnabled)
    (hcw : b.state.spindleClockwise = a.state.spindleClockwise)
    (hflood : b.state.floodCoolant = a.state.floodCoolant)
    (hmist : b.state.mistCoolant = a.state.mistCoolant)
    (hx : b.x = a.x) (hy : b.y = a.y) (hz : b.z = a.z)
    (hcwarc : a.state.moveMode ≠ moveModeCWArc) (hccwarc : a.state.moveMode ≠ moveModeCCWArc)
    (hoff : a.state.floodCoolant = false ∧ a.state.mistCoolant = false) :
    emittedFor (pre ++ [a]) b = [] := by
  rw [emittedFor_eq, exportLoop_append_move pre a ha]
  split_ifs
  · rfl
  · exact stepGroups_repeat _ a b ⟨exportLoop_floodCoolant pre, exportLoop_mistCoolant pre⟩
      hmode hplane hfeed hspeed hen hcw (hflood.trans hoff.1) (hmist.trans hoff.2)
      hx hy hz hcwarc hccwarc

/-- Witness of C2: the Linear move `linearMove` twice in a row. -/
theorem redundancy_elimination_witness :
    linearMove.state.moveMode ≠ moveModeInitial ∧
    linearMove.state.moveMode ≠ moveModeCWArc ∧
    linearMove.state.moveMode ≠ moveModeCCWArc ∧
    (linearMove.state.floodCoolant = false ∧ linearMove.state.mistCoolant = false) ∧
    emittedFor ([] ++ [linearMove]) linearMove = [] :=
  ⟨by decide, by decide, by decide, by decide,
    redundancy_elimination [] linearMove linearMove (by decide) rfl rfl rfl rfl rfl rfl rfl rfl
      rfl rfl rfl (by decide) (by decide) (by decide)⟩

/-- Counterexample to C2 as stated: the clockwise arc `arcMove` twice in a row. The two
records are identical and not Initial, and `Export` emits a group for the second one (the
arc restates its mode and its centre offset). -/
theorem redundancy_elimination_counterexample :
    arcMove.state.moveMode ≠ moveModeInitial ∧
    emittedFor [arcMove] arcMove = [{ Nodes := [Node.Word 'G' 2, Node.Word 'J' 5] }] ∧
    emittedFor [arcMove] arcMove ≠ [] := by
  decide

/-! ## Coolant -/

/-- C3 (coolant switch-off) evaluated at the failing input: after the flood-on record
`floodMove`, the record `linearMove` with both coolant flags off gets no group at all, so no
`M9`; the whole document holds `M8` and no `M9`. -/
theorem coolant_off_not_emitted :
    emittedFor [floodMove] linearMove = [] ∧
    Export [floodMove, linearMove] =
      { Blocks :=
          [{ Nodes := [Node.Comment "Exported by gocnc/vm" false] },
           { Nodes := [Node.Word 'G' 21, Node.Word 'G' 90, Node.Word 'G' 94] },
           { Nodes := [Node.Word 'M' 8] },
           { Nodes := [Node.Word 'F' 100] },
           { Nodes := [Node.Word 'G' 17, Node.Word 'G' 1, Node.Word 'X' 10] }] } := by
  decide

/-- C4 (coolant exclusivity) evaluated at the failing input: after the flood-on record
`floodMove`, the mist-on record `mistMove` gets `M7` with no `M9` before it. -/
theorem coolant_exclusivity_not_emitted :
    emittedFor [floodMove] mistMove =
      [{ Nodes := [Node.Word 'M' 7] }, { Nodes := [Node.Word 'G' 1] }] := by
  decide

/-! ## Spindle invalidation -/

/-- Counterexample to C5 as stated: S1 = `linearMove` (spindle off), S2 = `spindleMove`
(the same move with the spindle on, clockwise), S3 = `spindleMove` again. `Export` emits no
group for S3, hence no `G1` there; the `G1` that follows the spindle command is in the
groups of S2. -/
theorem spindle_invalidation_counterexample :
    emittedFor [linearMove, spindleMove] spindleMove = [] ∧
    emittedFor [linearMove] spindleMove =
      [{ Nodes := [Node.Word 'M' 3] }, { Nodes := [Node.Word 'G' 1] }] := by
  decide

theorem movePlaneCode_ne_one (p : MovePlane) : movePlaneCode p ≠ 1 := by
  cases p <;> simp [movePlaneCode]

/-- C5 (spindle invalidation, amended). For a three-record trace S1, S2, S3 of Linear moves
where S1 has the spindle off, S2 has it on clockwise and S3 has the spindle state of S2, the
groups emitted for S2 are the spindle-start group `M3` followed by further groups, one of
which holds the motion-mode token `G1`, although the numeric mode did not change between S1
and S2; and when both coolant flags of S3 are off, no group emitted for S3 holds `G1`. -/
theorem spindle_invalidation (s1 s2 s3 : Position)
    (h1 : s1.state.moveMode = moveModeLinear) (h1s : s1.state.spindleEnabled = false)
    (h2 : s2.state.moveMode = moveModeLinear)
    (h2s : s2.state.spindleEnabled = true ∧ s2.state.spindleClockwise = true)
    (h3 : s3.state.moveMode = moveModeLinear)
    (h3s : s3.state.spindleEnabled = s2.state.spindleEnabled ∧
      s3.state.spindleClockwise = s2.state.spindleClockwise) :
    (∃ rest, emittedFor [s1] s2 = { Nodes := [Node.Word 'M' 3] } :: rest ∧
        ∃ b ∈ rest, Node.Word 'G' 1 ∈ b.Nodes) ∧
    (s3.state.floodCoolant = false → s3.state.mistCoolant = false →
        ∀ b ∈ emittedFor [s1, s2] s3, Node.Word 'G' 1 ∉ b.Nodes) := by
  have e1 : exportLoop [s1] = stepState exportInit s1 :=
    exportLoop_append_move [] s1 (by simp [h1])
  have e2 : exportLoop [s1, s2] = stepState (stepState exportInit s1) s2 := by
    have := exportLoop_append_move [s1] s2 (by simp [h2])
    rw [e1] at this
    simpa using this
  constructor
  · rw [emittedFor_eq, e1, if_neg (by simp [h2])]
    have hsp : spindleChanged s2.state (stepState exportInit s1) := by
      simp [spindleChanged, stepState, h1s, h2s.1]
    have hmm : modalMoveMode s2.state (stepState exportInit s1) = -1 := by
      simp [modalMoveMode, hsp]
    have hmode : modeTokens s2.state (stepState exportInit s1) = [Node.Word 'G' 1] := by
      unfold modeTokens
      rw [hmm, h2]
      simp [moveModeCode, isArc]
      norm_num
    have hne : moveTokens s2 (stepState exportInit s1) ≠ [] := by
      simp [moveTokens, hmode]
    refine ⟨coolantGroups s2.state (stepState exportInit s1)
        ++ feedGroups s2.state (stepState exportInit s1)
        ++ speedGroups s2.state (stepState exportInit s1)
        ++ moveGroups s2 (stepState exportInit s1), ?_, ?_⟩
    · simp [stepGroups, modalGroups, spindleGroups, hsp, spindleCode, h2s.1, h2s.2, single]
    · refine ⟨{ Nodes := moveTokens s2 (stepState exportInit s1) }, ?_, ?_⟩
      · simp [moveGroups, hne]
      · simp [moveTokens, hmode]
  · intro hf hm b hb
    rw [emittedFor_eq, e2, if_neg (by simp [h3])] at hb
    have hsp : ¬ spindleChanged s3.state (stepState (stepState exportInit s1) s2) := by
      simp [spindleChanged, stepState, h3s.1, h3s.2]
    have hco : ¬ coolantChanged s3.state (stepState (stepState exportInit s1) s2) := by
      simp [coolantChanged, stepState, hf, hm, exportInit, shortBlock, ExportState.zero]
    have hmm : modalMoveMode s3.state (stepState (stepState exportInit s1) s2) = 1 := by
      unfold modalMoveMode
      rw [if_neg (not_or.mpr ⟨hsp, hco⟩)]
      simp [stepState, h2, moveModeCode]
    have hmode : modeTokens s3.state (stepState (stepState exportInit s1) s2) = [] := by
      unfold modeTokens
      rw [hmm, h3]
      simp [moveModeCode, isArc]
    have harc : arcTokens s3 = [] := by simp [arcTokens, isArc, h3]
    have hp := movePlaneCode_ne_one s3.state.movePlane
    simp only [stepGroups, modalGroups, spindleGroups, coolantGroups, if_neg hsp, if_neg hco,
      moveGroups, List.nil_append, List.mem_append] at hb
    rcases hb with (hb | hb) | hb
    · unfold feedGroups at hb
      split_ifs at hb <;> simp [single] at hb
      subst hb
      simp
    · unfold speedGroups at hb
      split_ifs at hb <;> simp [single] at hb
      subst hb
      simp
    · split_ifs at hb with he
      · simp at hb
      · simp only [List.mem_singleton] at hb
        subst hb
        simp only [moveTokens, hmode, harc, planeTokens, coordTokens]
        split_ifs <;> simp [Ne.symm hp]

/-- Witness of C5: S1 = `linearMove`, S2 = S3 = `spindleMove`. -/
theorem spindle_invalidation_witness :
    (linearMove.state.moveMode = moveModeLinear ∧ linearMove.state.spindleEnabled = false) ∧
    (spindleMove.state.moveMode = moveModeLinear ∧
      spindleMove.state.spindleEnabled = true ∧ spindleMove.state.spindleClockwise = true) ∧
    ((∃ rest, emittedFor [linearMove] spindleMove = { Nodes := [Node.Word 'M' 3] } :: rest ∧
        ∃ b ∈ rest, Node.Word 'G' 1 ∈ b.Nodes) ∧
     (spindleMove.state.floodCoolant = false → spindleMove.state.mistCoolant = false →
        ∀ b ∈ emittedFor [linearMove, spindleMove] spindleMove, Node.Word 'G' 1 ∉ b.Nodes)) :=
  ⟨by decide, by decide,
    spindle_invalidation linearMove spindleMove spindleMove (by decide) (by decide) (by decide)
      (by decide) (by decide) ⟨rfl, rfl⟩⟩

/-! ## End-to-end example -/

/-- Counterexample to C6 as stated: on `exampleTrace`, `Export` does not return the six
groups of the claim (comment, header, `M3`, `F100`, `S1000`, and a combined group of the
plane-XY token, `G1` and `X10`). -/
theorem end_to_end_counterexample :
    Export exampleTrace ≠
      { Blocks :=
          [{ Nodes := [Node.Comment "Exported by gocnc/vm" false] },
           { Nodes := [Node.Word 'G' 21, Node.Word 'G' 90, Node.Word 'G' 94] },
           { Nodes := [Node.Word 'M' 3] },
           { Nodes := [Node.Word 'F' 100] },
           { Nodes := [Node.Word 'S' 1000] },
           { Nodes := [Node.Word 'G' 17, Node.Word 'G' 1, Node.Word 'X' 10] }] } := by
  decide

/-- C6 (end-to-end example, amended). On `exampleTrace`, `Export` returns exactly these
groups in order: the identifying comment group, the header group, a group holding only the
plane-XY token `G17` (emitted for the Rapid record), the spindle-start-clockwise group `M3`,
the feedrate group `F100`, the spindle-speed group `S1000`, and one combined group holding
the Linear mode token `G1` and `X10` (no plane, `Y` or `Z` token). -/
theorem end_to_end_example :
    Export exampleTrace =
      { Blocks :=
          [{ Nodes := [Node.Comment "Exported by gocnc/vm" false] },
           { Nodes := [Node.Word 'G' 21, Node.Word 'G' 90, Node.Word 'G' 94] },
           { Nodes := [Node.Word 'G' 17] },
           { Nodes := [Node.Word 'M' 3] },
           { Nodes := [Node.Word 'F' 100] },
           { Nodes := [Node.Word 'S' 1000] },
           { Nodes := [Node.Word 'G' 1, Node.Word 'X' 10] }] } := by
  decide

/-! ## Arcs -/

theorem modalGroups_standalone (r : Position) (st : ExportState) :
    ∀ b ∈ modalGroups r st, IsStandalone b := by
  intro b hb
  simp only [modalGroups, spindleGroups, coolantGroups, feedGroups, speedGroups,
    List.mem_append] at hb
  rcases hb with ((hb | hb) | hb) | hb
  · split_ifs at hb <;> simp at hb
    subst hb
    exact ⟨'M', _, rfl, Or.inl rfl⟩
  · split_ifs at hb <;> simp at hb <;>
      first
      | (subst hb; exact ⟨'M', _, rfl, Or.inl rfl⟩)
      | (rcases hb with hb | hb <;> subst hb <;> exact ⟨'M', _, rfl, Or.inl rfl⟩)
  · split_ifs at hb <;> simp at hb
    subst hb
    exact ⟨'F', _, rfl, Or.inr (Or.inl rfl)⟩
  · split_ifs at hb <;> simp at hb
    subst hb
    exact ⟨'S', _, rfl, Or.inr (Or.inr rfl)⟩

theorem filter_isArcParam_moveTokens (r : Position) (st : ExportState) :
    (moveTokens r st).filter isArcParam = arcTokens r := by
  have h1 : (planeTokens r.state st).filter isArcParam = [] := by
    unfold planeTokens; split_ifs <;> simp [isArcParam]
  have h2 : (modeTokens r.state st).filter isArcParam = [] := by
    unfold modeTokens; split_ifs <;> simp [isArcParam]
  have h3 : (coordTokens r st).filter isArcParam = [] := by
    unfold coordTokens; split_ifs <;> simp [isArcParam]
  have h4 : (arcTokens r).filter isArcParam = arcTokens r := by
    unfold arcTokens; split_ifs <;> simp [isArcParam]
  simp [moveTokens, List.filter_append, h1, h2, h3, h4]

theorem mem_moveTokens_arcParam (r : Position) (st : ExportState) (n : Node)
    (hn : isArcParam n = true) : n ∈ moveTokens r st ↔ n ∈ arcTokens r := by
  rw [← filter_isArcParam_moveTokens r st, List.mem_filter]
  simp [hn]

/-- The groups emitted for an arc record: the standalone groups, then the combined group. -/
theorem stepGroups_arc (r : Position) (st : ExportState) (h : isArc r.state.moveMode) :
    stepGroups r st = modalGroups r st ++ [{ Nodes := moveTokens r st }] ∧
      Node.Word 'G' (moveModeCode r.state.moveMode) ∈ moveTokens r st := by
  have hmode : modeTokens r.state st = [Node.Word 'G' (moveModeCode r.state.moveMode)] := by
    simp [modeTokens, h]
  have hne : moveTokens r st ≠ [] := by simp [moveTokens, hmode]
  exact ⟨by simp [stepGroups, moveGroups, hne], by simp [moveTokens, hmode]⟩

theorem excessBits_small (fuel a : Nat) (h : a < 2 ^ 53) : excessBits fuel a = 0 := by
  cases fuel with
  | zero => rfl
  | succ n => simp only [excessBits, if_pos h]

/-- The conversion `float64(n)` is exact up to magnitude `2 ^ 53`. -/
theorem float64OfInt_exact (n : Int) (h : n.natAbs ≤ 2 ^ 53) : float64OfInt n = (n : ℚ) := by
  rcases Nat.lt_or_eq_of_le h with hlt | heq
  · unfold float64OfInt
    simp only [excessBits_small _ _ hlt, pow_zero, Nat.div_one, Nat.mod_one, mul_zero,
      mul_one]
    simp
    split_ifs with hn
    · rw [← Int.cast_natCast, Int.natCast_natAbs, abs_of_neg hn]
      simp
    · rw [← Int.cast_natCast, Int.natCast_natAbs, abs_of_nonneg (not_lt.mp hn)]
  · have h2 : n = 9007199254740992 ∨ n = -9007199254740992 := by omega
    rcases h2 with h2 | h2 <;> subst h2 <;> decide

/-- The conversion rounds beyond `2 ^ 53`: ties go to the even significand, and the largest
64-bit `int` becomes `2 ^ 63`. -/
theorem float64OfInt_rounds :
    float64OfInt 9007199254740993 = 9007199254740992 ∧
    float64OfInt 9007199254740995 = 9007199254740996 ∧
    float64OfInt (-9007199254740993) = -9007199254740992 ∧
    float64OfInt 9223372036854775807 = 9223372036854775808 := by
  decide

theorem mem_arcTokens (r : Position) (h : isArc r.state.moveMode) :
    (∀ v, Node.Word 'I' v ∈ arcTokens r ↔ (r.i ≠ 0 ∧ v = r.i)) ∧
    (∀ v, Node.Word 'J' v ∈ arcTokens r ↔ (r.j ≠ 0 ∧ v = r.j)) ∧
    (∀ v, Node.Word 'K' v ∈ arcTokens r ↔ (r.k ≠ 0 ∧ v = r.k)) ∧
    (∀ v, Node.Word 'P' v ∈ arcTokens r ↔ (r.rot ≠ 1 ∧ v = float64OfInt r.rot)) := by
  unfold arcTokens
  rw [if_pos h]
  refine ⟨?_, ?_, ?_, ?_⟩ <;> intro v <;>
    by_cases hi : r.i = 0 <;> by_cases hj : r.j = 0 <;> by_cases hk : r.k = 0 <;>
    by_cases hr : r.rot = 1 <;> simp [hi, hj, hk, hr]

/-- C7 (arc parameters). For an ArcCW or ArcCCW record the emitted groups are standalone
`M`/`F`/`S` groups followed by the combined group, and the combined group holds an `I` token
iff `i ≠ 0`, a `J` token iff `j ≠ 0`, a `K` token iff `k ≠ 0`, each carrying the value of
the record, and a `P` token (turn count) iff `rot ≠ 1`; the `P` token carries `float64(rot)`,
which is `rot` itself up to magnitude `2 ^ 53`. Its arc-parameter tokens are exactly those,
once each, in the order I, J, K, P. For a record that is not an arc no `I`, `J`, `K` or `P`
token is emitted, whatever `i`, `j`, `k`, `rot` hold. -/
theorem arc_parameters (pre : List Position) (r : Position) :
    (r.state.moveMode = moveModeCWArc ∨ r.state.moveMode = moveModeCCWArc →
      ∃ modal combined, emittedFor pre r = modal ++ [combined] ∧
        (∀ b ∈ modal, IsStandalone b) ∧
        (∀ v, Node.Word 'I' v ∈ combined.Nodes ↔ (r.i ≠ 0 ∧ v = r.i)) ∧
        (∀ v, Node.Word 'J' v ∈ combined.Nodes ↔ (r.j ≠ 0 ∧ v = r.j)) ∧
        (∀ v, Node.Word 'K' v ∈ combined.Nodes ↔ (r.k ≠ 0 ∧ v = r.k)) ∧
        ((∃ v, Node.Word 'P' v ∈ combined.Nodes) ↔ r.rot ≠ 1) ∧
        (∀ v, Node.Word 'P' v ∈ combined.Nodes ↔ (r.rot ≠ 1 ∧ v = float64OfInt r.rot)) ∧
        (r.rot.natAbs ≤ 2 ^ 53 →
          ∀ v, Node.Word 'P' v ∈ combined.Nodes ↔ (r.rot ≠ 1 ∧ v = (r.rot : ℚ))) ∧
        combined.Nodes.filter isArcParam =
          (if r.i ≠ 0 then [Node.Word 'I' r.i] else [])
          ++ (if r.j ≠ 0 then [Node.Word 'J' r.j] else [])
          ++ (if r.k ≠ 0 then [Node.Word 'K' r.k] else [])
          ++ (if r.rot ≠ 1 then [Node.Word 'P' (float64OfInt r.rot)] else [])) ∧
    (¬ (r.state.moveMode = moveModeCWArc ∨ r.state.moveMode = moveModeCCWArc) →
      ∀ b ∈ emittedFor pre r, ∀ n ∈ b.Nodes, isArcParam n = false) := by
  constructor
  · intro h
    have hinit : r.state.moveMode ≠ moveModeInitial := by
      rcases h with h | h <;> simp [h]
    have harc : isArc r.state.moveMode := h
    obtain ⟨hI, hJ, hK, hP⟩ := mem_arcTokens r harc
    have hP' : ∀ v, Node.Word 'P' v ∈ moveTokens r (exportLoop pre) ↔
        (r.rot ≠ 1 ∧ v = float64OfInt r.rot) := by
      intro v
      rw [mem_moveTokens_arcParam r _ _ (by simp [isArcParam])]
      exact hP v
    refine ⟨modalGroups r (exportLoop pre), { Nodes := moveTokens r (exportLoop pre) },
      ?_, modalGroups_standalone r _, ?_, ?_, ?_, ?_, ?_, ?_, ?_⟩
    · rw [emittedFor_eq, if_neg hinit]
      exact (stepGroups_arc r _ harc).1
    · intro v
      rw [mem_moveTokens_arcParam r _ _ (by simp [isArcParam])]
      exact hI v
    · intro v
      rw [mem_moveTokens_arcParam r _ _ (by simp [isArcParam])]
      exact hJ v
    · intro v
      rw [mem_moveTokens_arcParam r _ _ (by simp [isArcParam])]
      exact hK v
    · constructor
      · rintro ⟨v, hv⟩
        exact ((hP' v).mp hv).1
      · intro hr
        exact ⟨float64OfInt r.rot, (hP' _).mpr ⟨hr, rfl⟩⟩
    · exact hP'
    · intro hsmall v
      rw [← float64OfInt_exact r.rot hsmall]
      exact hP' v
    · show (moveTokens r (exportLoop pre)).filter isArcParam = _
      rw [filter_isArcParam_moveTokens]
      unfold arcTokens
      rw [if_pos harc]
  · intro h b hb n hn
    rw [emittedFor_eq] at hb
    split_ifs at hb with hi
    · simp at hb
    · have hna : ¬ isArc r.state.moveMode := h
      have harc : arcTokens r = [] := by
        unfold arcTokens
        rw [if_neg hna]
      simp only [stepGroups, List.mem_append] at hb
      rcases hb with hb | hb
      · obtain ⟨c, v, hc, hl⟩ := modalGroups_standalone r _ b hb
        rw [hc] at hn
        simp only [List.mem_singleton] at hn
        subst hn
        rcases hl with hl | hl | hl <;> subst hl <;> simp [isArcParam]
      · unfold moveGroups at hb
        split_ifs at hb with he
        · simp at hb
        · simp only [List.mem_singleton] at hb
          subst hb
          by_contra hcon
          have hcon : isArcParam n = true := by simpa using hcon
          have := (mem_moveTokens_arcParam r (exportLoop pre) n hcon).mp hn
          rw [harc] at this
          simp at this

/-- Witness of C7: the clockwise arc `arcMove` (`i = 0`, `j = 5`, `k = 0`, `rot = 1`) after
the Linear move `linearMove`; its combined group holds `J5` as its only arc-parameter token
and no turn-count token. The arc `bigArc` with `rot = 2 ^ 53 + 1` gets `J5` and the
turn-count token `P9007199254740992`. -/
theorem arc_parameters_witness :
    (arcMove.state.moveMode = moveModeCWArc ∨ arcMove.state.moveMode = moveModeCCWArc) ∧
    (∃ modal combined, emittedFor [linearMove] arcMove = modal ++ [combined] ∧
      (∀ b ∈ modal, IsStandalone b) ∧
      combined.Nodes.filter isArcParam = [Node.Word 'J' 5] ∧
      (∀ v, Node.Word 'P' v ∉ combined.Nodes)) ∧
    (∃ modal combined, emittedFor [linearMove] bigArc = modal ++ [combined] ∧
      (∀ b ∈ modal, IsStandalone b) ∧
      combined.Nodes.filter isArcParam =
        [Node.Word 'J' 5, Node.Word 'P' 9007199254740992]) := by
  refine ⟨by decide, ?_, ?_⟩
  · obtain ⟨modal, combined, h1, h2, _, _, _, _, hP, _, hf⟩ :=
      (arc_parameters [linearMove] arcMove).1 (by decide)
    refine ⟨modal, combined, h1, h2, ?_, ?_⟩
    · rw [hf]
      decide
    · intro v hv
      exact ((hP v).mp hv).1 (by decide)
  · obtain ⟨modal, combined, h1, h2, _, _, _, _, _, _, hf⟩ :=
      (arc_parameters [linearMove] bigArc).1 (by decide)
    refine ⟨modal, combined, h1, h2, ?_⟩
    rw [hf]
    decide

/-- C8 (arc restatement). For every trace, the groups emitted for an ArcCW record are
standalone `M`/`F`/`S` groups followed by a combined group that holds the motion-mode token
`G2`, and for an ArcCCW record a combined group that holds `G3`, whatever was emitted
before; so each of two consecutive ArcCW records receives its own motion-mode token. -/
theorem arc_restatement (pre : List Position) (r : Position) :
    (r.state.moveMode = moveModeCWArc →
      ∃ modal combined, emittedFor pre r = modal ++ [combined] ∧
        (∀ b ∈ modal, IsStandalone b) ∧ Node.Word 'G' 2 ∈ combined.Nodes) ∧
    (r.state.moveMode = moveModeCCWArc →
      ∃ modal combined, emittedFor pre r = modal ++ [combined] ∧
        (∀ b ∈ modal, IsStandalone b) ∧ Node.Word 'G' 3 ∈ combined.Nodes) := by
  constructor
  · intro h
    have harc : isArc r.state.moveMode := Or.inl h
    have hs := stepGroups_arc r (exportLoop pre) harc
    refine ⟨modalGroups r (exportLoop pre), { Nodes := moveTokens r (exportLoop pre) },
      ?_, modalGroups_standalone r _, ?_⟩
    · rw [emittedFor_eq, if_neg (by simp [h])]
      exact hs.1
    · simpa [h, moveModeCode] using hs.2
  · intro h
    have harc : isArc r.state.moveMode := Or.inr h
    have hs := stepGroups_arc r (exportLoop pre) harc
    refine ⟨modalGroups r (exportLoop pre), { Nodes := moveTokens r (exportLoop pre) },
      ?_, modalGroups_standalone r _, ?_⟩
    · rw [emittedFor_eq, if_neg (by simp [h])]
      exact hs.1
    · simpa [h, moveModeCode] using hs.2

/-- Witness of C8: two consecutive ArcCW records `arcMove`; the second one again gets a
combined group holding `G2`. -/
theorem arc_restatement_witness :
    arcMove.state.moveMode = moveModeCWArc ∧
    ∃ modal combined, emittedFor [arcMove] arcMove = modal ++ [combined] ∧
      (∀ b ∈ modal, IsStandalone b) ∧ Node.Word 'G' 2 ∈ combined.Nodes :=
  ⟨by decide, (arc_restatement [arcMove] arcMove).1 (by decide)⟩

/-! ## Letters of the emitted tokens -/

theorem letter_moveTokens (r : Position) (st : ExportState) :
    ∀ n ∈ moveTokens r st, ∃ c, letter n = some c ∧
      (c = 'G' ∨ c = 'X' ∨ c = 'Y' ∨ c = 'Z' ∨ c = 'I' ∨ c = 'J' ∨ c = 'K' ∨ c = 'P') := by
  intro n hn
  simp only [moveTokens, planeTokens, modeTokens, coordTokens, arcTokens,
    List.mem_append] at hn
  rcases hn with ((hn | hn) | ((hn | hn) | hn)) | hn
  · split_ifs at hn <;> simp at hn
    subst hn
    exact ⟨'G', rfl, by simp⟩
  · split_ifs at hn <;> simp at hn
    subst hn
    exact ⟨'G', rfl, by simp⟩
  · split_ifs at hn <;> simp at hn
    subst hn
    exact ⟨'X', rfl, by simp⟩
  · split_ifs at hn <;> simp at hn
    subst hn
    exact ⟨'Y', rfl, by simp⟩
  · split_ifs at hn <;> simp at hn
    subst hn
    exact ⟨'Z', rfl, by simp⟩
  · by_cases h : isArc r.state.moveMode
    · rw [if_pos h] at hn
      simp only [List.mem_append] at hn
      rcases hn with ((hn | hn) | hn) | hn
      · split_ifs at hn <;> simp at hn
        subst hn
        exact ⟨'I', rfl, by simp⟩
      · split_ifs at hn <;> simp at hn
        subst hn
        exact ⟨'J', rfl, by simp⟩
      · split_ifs at hn <;> simp at hn
        subst hn
        exact ⟨'K', rfl, by simp⟩
      · split_ifs at hn <;> simp at hn
        subst hn
        exact ⟨'P', rfl, by simp⟩
    · rw [if_neg h] at hn
      simp at hn

/-- No token of `moveBlock` is an `M`, `F` or `S` word. -/
theorem moveTokens_any_false (r : Position) (st : ExportState) (p : Node → Bool)
    (hp : ∀ n c, letter n = some c → p n = true → (c = 'M' ∨ c = 'F' ∨ c = 'S')) :
    (moveTokens r st).any p = false := by
  rw [List.any_eq_false]
  intro n hn hpn
  obtain ⟨c, hc, hl⟩ := letter_moveTokens r st n hn
  have := hp n c hc hpn
  rcases this with h | h | h <;> subst h <;> simp at hl

theorem isSpindleWord_letter (n : Node) (c : Char) (h : letter n = some c)
    (hp : isSpindleWord n = true) : c = 'M' ∨ c = 'F' ∨ c = 'S' := by
  cases n with
  | Word a v =>
    simp only [letter, Option.some.injEq] at h
    subst h
    simp only [isSpindleWord, decide_eq_true_eq] at hp
    exact Or.inl hp.1
  | Comment s e => simp [letter] at h

theorem isFeedWord_letter (n : Node) (c : Char) (h : letter n = some c)
    (hp : isFeedWord n = true) : c = 'M' ∨ c = 'F' ∨ c = 'S' := by
  cases n with
  | Word a v =>
    simp only [letter, Option.some.injEq] at h
    subst h
    simp only [isFeedWord, decide_eq_true_eq] at hp
    exact Or.inr (Or.inl hp)
  | Comment s e => simp [letter] at h

theorem isSpeedWord_letter (n : Node) (c : Char) (h : letter n = some c)
    (hp : isSpeedWord n = true) : c = 'M' ∨ c = 'F' ∨ c = 'S' := by
  cases n with
  | Word a v =>
    simp only [letter, Option.some.injEq] at h
    subst h
    simp only [isSpeedWord, decide_eq_true_eq] at hp
    exact Or.inr (Or.inr hp)
  | Comment s e => simp [letter] at h

/-- The combined group is never selected by a predicate on `M`, `F` or `S` words. -/
theorem filter_moveGroups (r : Position) (st : ExportState) (p : Node → Bool)
    (hp : ∀ n c, letter n = some c → p n = true → (c = 'M' ∨ c = 'F' ∨ c = 'S')) :
    (moveGroups r st).filter (fun b => b.Nodes.any p) = [] := by
  unfold moveGroups
  split_ifs
  · rfl
  · simp [moveTokens_any_false r st p hp]

/-! ## Spindle rule -/

/-- The remembered spindle pair is that of the last record that was not skipped. -/
theorem exportLoop_spindle (trace : List Position) :
    ((exportLoop trace).spindleEnabled, (exportLoop trace).spindleClockwise)
      = lastSpindle trace := by
  induction trace using List.reverseRecOn with
  | nil => rfl
  | append_singleton pre r ih =>
    rw [exportLoop_append, exportStep_eq]
    by_cases h : r.state.moveMode = moveModeInitial
    · simp only [h, if_true, ih]
      simp [lastSpindle, moves_append, h]
    · simp [h, stepState, lastSpindle, moves_append]

theorem spindleChanged_iff (pre : List Position) (r : Position) :
    spindleChanged r.state (exportLoop pre) ↔
      (r.state.spindleEnabled, r.state.spindleClockwise) ≠ lastSpindle pre := by
  rw [← exportLoop_spindle]
  unfold spindleChanged
  simp only [ne_eq, Prod.mk.injEq, not_and_or]

theorem filter_spindle_stepGroups (r : Position) (st : ExportState) :
    (stepGroups r st).filter (fun b => b.Nodes.any isSpindleWord) = spindleGroups r.state st := by
  have h1 : (spindleGroups r.state st).filter (fun b => b.Nodes.any isSpindleWord)
      = spindleGroups r.state st := by
    unfold spindleGroups spindleCode
    split_ifs <;> simp [single, isSpindleWord]
  have h2 : (coolantGroups r.state st).filter (fun b => b.Nodes.any isSpindleWord) = [] := by
    unfold coolantGroups
    split_ifs <;> simp [single, isSpindleWord]
  have h3 : (feedGroups r.state st).filter (fun b => b.Nodes.any isSpindleWord) = [] := by
    unfold feedGroups
    split_ifs <;> simp [single, isSpindleWord]
  have h4 : (speedGroups r.state st).filter (fun b => b.Nodes.any isSpindleWord) = [] := by
    unfold speedGroups
    split_ifs <;> simp [single, isSpindleWord]
  have h5 := filter_moveGroups r st isSpindleWord isSpindleWord_letter
  simp only [stepGroups, modalGroups, List.filter_append, h1, h2, h3, h4, h5,
    List.append_nil]

/-- C11 (spindle rule). For a record that is not Initial, the groups emitted for it that
hold a spindle command (`M3`, `M4` or `M5`) are: exactly one single-token group, `M3` if the
spindle is enabled and clockwise, `M4` if enabled and not clockwise, `M5` if not enabled,
when the pair `(spindleEnabled, spindleClockwise)` of the record differs from that of the
nearest preceding record that is not Initial (from `(false, false)` if there is none); and
none when the pair is the same. -/
theorem spindle_rule (pre : List Position) (r : Position)
    (h : r.state.moveMode ≠ moveModeInitial) :
    (emittedFor pre r).filter (fun b => b.Nodes.any isSpindleWord) =
      if (r.state.spindleEnabled, r.state.spindleClockwise) ≠
          (match (pre.filter (fun p => decide (p.state.moveMode ≠ moveModeInitial))).getLast? with
            | none => (false, false)
            | some p => (p.state.spindleEnabled, p.state.spindleClockwise)) then
        [{ Nodes := [Node.Word 'M'
            (if r.state.spindleEnabled = true then
              (if r.state.spindleClockwise = true then 3 else 4) else 5)] }]
      else [] := by
  rw [emittedFor_eq, if_neg h, filter_spindle_stepGroups]
  unfold spindleGroups
  have := spindleChanged_iff pre r
  unfold lastSpindle moves at this
  by_cases hc : spindleChanged r.state (exportLoop pre)
  · rw [if_pos hc, if_pos (this.mp hc)]
    rfl
  · rw [if_neg hc, if_neg (fun h' => hc (this.mpr h'))]

/-- Witness of C11: after `linearMove` (spindle off), `spindleMove` gets the group `M3`. -/
theorem spindle_rule_witness :
    spindleMove.state.moveMode ≠ moveModeInitial ∧
    (emittedFor [linearMove] spindleMove).filter (fun b => b.Nodes.any isSpindleWord) =
      [{ Nodes := [Node.Word 'M' 3] }] := by
  refine ⟨by decide, ?_⟩
  rw [spindle_rule [linearMove] spindleMove (by decide)]
  decide

/-! ## Feed/speed rule -/

theorem feedMoves_append (pre : List Position) (r : Position) :
    feedMoves (pre ++ [r]) =
      if r.state.moveMode ≠ moveModeInitial ∧ r.state.moveMode ≠ moveModeRapid then
        feedMoves pre ++ [r] else feedMoves pre := by
  by_cases h : r.state.moveMode ≠ moveModeInitial ∧ r.state.moveMode ≠ moveModeRapid
  · simp [feedMoves, h]
  · rw [if_neg h]
    simp only [feedMoves, List.filter_append, List.filter_cons, List.filter_nil]
    simp [h]

/-- The remembered feedrate and spindle speed are those of the last record that is neither
Initial nor Rapid. -/
theorem exportLoop_feed (trace : List Position) :
    (exportLoop trace).lastFeedrate = lastFeed trace ∧
      (exportLoop trace).lastSpindleSpeed = lastSpeed trace := by
  induction trace using List.reverseRecOn with
  | nil => exact ⟨rfl, rfl⟩
  | append_singleton pre r ih =>
    rw [exportLoop_append, exportStep_eq]
    by_cases h : r.state.moveMode = moveModeInitial
    · simp only [h, if_true, ih]
      simp [lastFeed, lastSpeed, feedMoves_append, h]
    · by_cases hr : r.state.moveMode = moveModeRapid
      · simp [h, hr, stepState, lastFeed, lastSpeed, feedMoves_append, ih.1, ih.2]
      · simp [h, hr, stepState, lastFeed, lastSpeed, feedMoves_append]

theorem filter_feed_stepGroups (r : Position) (st : ExportState) :
    (stepGroups r st).filter (fun b => b.Nodes.any isFeedWord) = feedGroups r.state st := by
  have h1 : (spindleGroups r.state st).filter (fun b => b.Nodes.any isFeedWord) = [] := by
    unfold spindleGroups
    split_ifs <;> simp [single, isFeedWord]
  have h2 : (coolantGroups r.state st).filter (fun b => b.Nodes.any isFeedWord) = [] := by
    unfold coolantGroups
    split_ifs <;> simp [single, isFeedWord]
  have h3 : (feedGroups r.state st).filter (fun b => b.Nodes.any isFeedWord)
      = feedGroups r.state st := by
    unfold feedGroups
    split_ifs <;> simp [single, isFeedWord]
  have h4 : (speedGroups r.state st).filter (fun b => b.Nodes.any isFeedWord) = [] := by
    unfold speedGroups
    split_ifs <;> simp [single, isFeedWord]
  have h5 := filter_moveGroups r st isFeedWord isFeedWord_letter
  simp only [stepGroups, modalGroups, List.filter_append, h1, h2, h3, h4, h5,
    List.append_nil, List.nil_append]

theorem filter_speed_stepGroups (r : Position) (st : ExportState) :
    (stepGroups r st).filter (fun b => b.Nodes.any isSpeedWord) = speedGroups r.state st := by
  have h1 : (spindleGroups r.state st).filter (fun b => b.Nodes.any isSpeedWord) = [] := by
    unfold spindleGroups
    split_ifs <;> simp [single, isSpeedWord]
  have h2 : (coolantGroups r.state st).filter (fun b => b.Nodes.any isSpeedWord) = [] := by
    unfold coolantGroups
    split_ifs <;> simp [single, isSpeedWord]
  have h3 : (feedGroups r.state st).filter (fun b => b.Nodes.any isSpeedWord) = [] := by
    unfold feedGroups
    split_ifs <;> simp [single, isSpeedWord]
  have h4 : (speedGroups r.state st).filter (fun b => b.Nodes.any isSpeedWord)
      = speedGroups r.state st := by
    unfold speedGroups
    split_ifs <;> simp [single, isSpeedWord]
  have h5 := filter_moveGroups r st isSpeedWord isSpeedWord_letter
  simp only [stepGroups, modalGroups, List.filter_append, h1, h2, h3, h4, h5,
    List.append_nil, List.nil_append]

/-- C12 (feed/speed rule). For a Rapid record no group holding an `F` or `S` word is emitted
and the remembered feedrate and spindle speed stay as they were. For every other record that
is not Initial, the groups holding an `F` word are exactly one single-token group carrying
the feedrate of the record when that feedrate differs from the feedrate of the nearest
preceding record that is neither Rapid nor Initial (0 if there is none), and none otherwise;
independently the same holds for `S` and the spindle speed. -/
theorem feed_speed_rule (pre : List Position) (r : Position) :
    (r.state.moveMode = moveModeRapid →
      (emittedFor pre r).filter (fun b => b.Nodes.any isFeedWord) = [] ∧
      (emittedFor pre r).filter (fun b => b.Nodes.any isSpeedWord) = [] ∧
      (exportLoop (pre ++ [r])).lastFeedrate = (exportLoop pre).lastFeedrate ∧
      (exportLoop (pre ++ [r])).lastSpindleSpeed = (exportLoop pre).lastSpindleSpeed) ∧
    (r.state.moveMode ≠ moveModeRapid → r.state.moveMode ≠ moveModeInitial →
      (emittedFor pre r).filter (fun b => b.Nodes.any isFeedWord) =
        (if r.state.feedrate ≠
            (match (pre.filter (fun p => decide (p.state.moveMode ≠ moveModeInitial ∧
                p.state.moveMode ≠ moveModeRapid))).getLast? with
              | none => 0
              | some p => p.state.feedrate) then
          [{ Nodes := [Node.Word 'F' r.state.feedrate] }] else []) ∧
      (emittedFor pre r).filter (fun b => b.Nodes.any isSpeedWord) =
        (if r.state.spindleSpeed ≠
            (match (pre.filter (fun p => decide (p.state.moveMode ≠ moveModeInitial ∧
                p.state.moveMode ≠ moveModeRapid))).getLast? with
              | none => 0
              | some p => p.state.spindleSpeed) then
          [{ Nodes := [Node.Word 'S' r.state.spindleSpeed] }] else [])) := by
  have hf := (exportLoop_feed pre).1
  have hs := (exportLoop_feed pre).2
  unfold lastFeed feedMoves at hf
  unfold lastSpeed feedMoves at hs
  constructor
  · intro hr
    have hi : r.state.moveMode ≠ moveModeInitial := by simp [hr]
    rw [emittedFor_eq, if_neg hi, filter_feed_stepGroups, filter_speed_stepGroups,
      exportLoop_append_move pre r hi]
    simp [feedGroups, speedGroups, stepState, hr]
  · intro hr hi
    rw [emittedFor_eq, if_neg hi, filter_feed_stepGroups, filter_speed_stepGroups]
    unfold feedGroups speedGroups
    rw [hf, hs]
    simp only [hr, ne_eq, not_false_eq_true, true_and, single]

/-- Witness of C12: the Rapid record `rec0 moveModeRapid` after `linearMove` gets no `F` or
`S` group, and `spindleMove` with feedrate 100 after the trace `[rec0 moveModeRapid]` gets
the group `F100` and no `S` group. -/
theorem feed_speed_rule_witness :
    ((rec0 moveModeRapid).state.moveMode = moveModeRapid ∧
      (emittedFor [linearMove] (rec0 moveModeRapid)).filter
        (fun b => b.Nodes.any isFeedWord) = []) ∧
    (spindleMove.state.moveMode ≠ moveModeRapid ∧
      spindleMove.state.moveMode ≠ moveModeInitial ∧
      (emittedFor [rec0 moveModeRapid] spindleMove).filter
        (fun b => b.Nodes.any isFeedWord) = [{ Nodes := [Node.Word 'F' 100] }] ∧
      (emittedFor [rec0 moveModeRapid] spindleMove).filter
        (fun b => b.Nodes.any isSpeedWord) = []) := by
  refine ⟨⟨by decide,
      ((feed_speed_rule [linearMove] (rec0 moveModeRapid)).1 (by decide)).1⟩,
    by decide, by decide, ?_, ?_⟩
  · rw [((feed_speed_rule [rec0 moveModeRapid] spindleMove).2 (by decide) (by decide)).1]
    decide
  · rw [((feed_speed_rule [rec0 moveModeRapid] spindleMove).2 (by decide) (by decide)).2]
    decide

/-! ## Modal-command invalidation -/

theorem moveModeCode_ne_neg_one (m : MoveMode) : moveModeCode m ≠ -1 := by
  cases m <;> simp [moveModeCode] <;> norm_num

/-- A group emitted for a record holds an `M` word only if line 62 or line 75 fired. -/
theorem changed_of_mem_stepGroups (r : Position) (st : ExportState) (b : Block) (v : ℚ)
    (hb : b ∈ stepGroups r st) (hn : Node.Word 'M' v ∈ b.Nodes) :
    spindleChanged r.state st ∨ coolantChanged r.state st := by
  by_contra hne
  rw [not_or] at hne
  simp only [stepGroups, modalGroups, spindleGroups, coolantGroups, if_neg hne.1,
    if_neg hne.2, List.nil_append, List.mem_append] at hb
  rcases hb with (hb | hb) | hb
  · unfold feedGroups at hb
    split_ifs at hb <;> simp [single] at hb
    subst hb
    simp at hn
  · unfold speedGroups at hb
    split_ifs at hb <;> simp [single] at hb
    subst hb
    simp at hn
  · unfold moveGroups at hb
    split_ifs at hb
    · simp at hb
    · simp only [List.mem_singleton] at hb
      subst hb
      obtain ⟨c, hc, hl⟩ := letter_moveTokens r st _ hn
      simp only [letter, Option.some.injEq] at hc
      subst hc
      simp at hl

/-- When line 62 or line 75 fired, the combined group exists and holds the mode token. -/
theorem stepGroups_of_changed (r : Position) (st : ExportState)
    (h : spindleChanged r.state st ∨ coolantChanged r.state st) :
    stepGroups r st = modalGroups r st ++ [{ Nodes := moveTokens r st }] ∧
      Node.Word 'G' (moveModeCode r.state.moveMode) ∈ moveTokens r st := by
  have hmm : modalMoveMode r.state st = -1 := by simp [modalMoveMode, h]
  have hmode : modeTokens r.state st = [Node.Word 'G' (moveModeCode r.state.moveMode)] := by
    unfold modeTokens
    rw [hmm, if_pos (Or.inr (moveModeCode_ne_neg_one _))]
  have hne : moveTokens r st ≠ [] := by simp [moveTokens, hmode]
  exact ⟨by simp [stepGroups, moveGroups, hne], by simp [moveTokens, hmode]⟩

/-- C13 (modal-command invalidation). When the groups emitted for a record that is not
Initial hold a spindle command (`M3`/`M4`/`M5`) or a coolant command (`M7`/`M8`/`M9`), those
groups are standalone `M`/`F`/`S` groups followed by a combined group, and the combined group
holds the motion-mode token carrying the numeric mode of the record, whatever the mode of
the preceding record. -/
theorem modal_invalidation (pre : List Position) (r : Position)
    (h : r.state.moveMode ≠ moveModeInitial)
    (hm : ∃ b ∈ emittedFor pre r, ∃ v, Node.Word 'M' v ∈ b.Nodes ∧
      (v = 3 ∨ v = 4 ∨ v = 5 ∨ v = 7 ∨ v = 8 ∨ v = 9)) :
    ∃ modal combined, emittedFor pre r = modal ++ [combined] ∧
      (∀ b ∈ modal, IsStandalone b) ∧
      Node.Word 'G' (moveModeCode r.state.moveMode) ∈ combined.Nodes := by
  obtain ⟨b, hb, v, hv, _⟩ := hm
  rw [emittedFor_eq, if_neg h] at hb ⊢
  have hs := stepGroups_of_changed r _ (changed_of_mem_stepGroups r _ b v hb hv)
  exact ⟨modalGroups r (exportLoop pre), { Nodes := moveTokens r (exportLoop pre) },
    hs.1, modalGroups_standalone r _, hs.2⟩

/-- Witness of C13: `spindleMove` after `linearMove` has the same mode (Linear) as its
predecessor, gets `M3`, and its combined group holds `G1`. -/
theorem modal_invalidation_witness :
    spindleMove.state.moveMode ≠ moveModeInitial ∧
    spindleMove.state.moveMode = linearMove.state.moveMode ∧
    ∃ modal combined, emittedFor [linearMove] spindleMove = modal ++ [combined] ∧
      (∀ b ∈ modal, IsStandalone b) ∧ Node.Word 'G' 1 ∈ combined.Nodes :=
  ⟨by decide, by decide,
    modal_invalidation [linearMove] spindleMove (by decide)
      ⟨{ Nodes := [Node.Word 'M' 3] }, by decide, 3, by decide, Or.inl rfl⟩⟩

/-! ## Emission order -/

theorem moveTokens_pieces (r : Position) (st : ExportState) :
    moveTokens r st =
      planeTokens r.state st ++ modeTokens r.state st
        ++ (if r.x ≠ st.lastX then [Node.Word 'X' r.x] else [])
        ++ (if r.y ≠ st.lastY then [Node.Word 'Y' r.y] else [])
        ++ (if r.z ≠ st.lastZ then [Node.Word 'Z' r.z] else [])
        ++ (if isArc r.state.moveMode ∧ r.i ≠ 0 then [Node.Word 'I' r.i] else [])
        ++ (if isArc r.state.moveMode ∧ r.j ≠ 0 then [Node.Word 'J' r.j] else [])
        ++ (if isArc r.state.moveMode ∧ r.k ≠ 0 then [Node.Word 'K' r.k] else [])
        ++ (if isArc r.state.moveMode ∧ r.rot ≠ 1 then [Node.Word 'P' (float64OfInt r.rot)] else []) := by
  unfold moveTokens coordTokens arcTokens
  by_cases ha : isArc r.state.moveMode <;> simp [ha, List.append_assoc]

/-- The remembered mode and plane are those of the last record that was not skipped. -/
theorem exportLoop_mode_plane (trace : List Position) :
    (exportLoop trace).lastMoveMode = lastModeCode trace ∧
      (exportLoop trace).lastMovePlane = lastPlaneCode trace := by
  induction trace using List.reverseRecOn with
  | nil => exact ⟨rfl, rfl⟩
  | append_singleton pre r ih =>
    rw [exportLoop_append, exportStep_eq]
    by_cases h : r.state.moveMode = moveModeInitial
    · simp only [h, if_true, ih]
      simp [lastModeCode, lastPlaneCode, moves_append, h]
    · simp [h, stepState, lastModeCode, lastPlaneCode, moves_append]

/-- The test of line 111 in terms of the trace. -/
theorem modeTokens_eq (pre : List Position) (r : Position) :
    modeTokens r.state (exportLoop pre) =
      if (r.state.moveMode = moveModeCWArc ∨ r.state.moveMode = moveModeCCWArc) ∨
          (r.state.spindleEnabled, r.state.spindleClockwise) ≠ lastSpindle pre ∨
          (r.state.floodCoolant ≠ (exportLoop pre).floodCoolant ∨
            r.state.mistCoolant ≠ (exportLoop pre).mistCoolant) ∨
          moveModeCode r.state.moveMode ≠ lastModeCode pre then
        [Node.Word 'G' (moveModeCode r.state.moveMode)] else [] := by
  have hs := spindleChanged_iff pre r
  have hm := (exportLoop_mode_plane pre).1
  have hne := moveModeCode_ne_neg_one r.state.moveMode
  unfold modeTokens modalMoveMode
  by_cases h1 : spindleChanged r.state (exportLoop pre)
  · have h1' := hs.mp h1
    rw [if_pos (Or.inl h1), if_pos (Or.inr hne), if_pos (Or.inr (Or.inl h1'))]
  · have h1' : ¬ (r.state.spindleEnabled, r.state.spindleClockwise) ≠ lastSpindle pre :=
      fun h' => h1 (hs.mpr h')
    by_cases h2 : coolantChanged r.state (exportLoop pre)
    · have h2' : r.state.floodCoolant ≠ (exportLoop pre).floodCoolant ∨
          r.state.mistCoolant ≠ (exportLoop pre).mistCoolant := h2
      rw [if_pos (Or.inr h2), if_pos (Or.inr hne), if_pos (Or.inr (Or.inr (Or.inl h2')))]
    · have h2' : ¬ (r.state.floodCoolant ≠ (exportLoop pre).floodCoolant ∨
          r.state.mistCoolant ≠ (exportLoop pre).mistCoolant) := h2
      rw [if_neg (not_or.mpr ⟨h1, h2⟩), hm]
      simp only [isArc, h1', h2', false_or]

/-- C14 (emission order). The groups emitted for a record that is not Initial are, in this
order: the spindle group, the coolant groups (`M9`, then `M8` or `M7`), the feedrate group,
the spindle-speed group, each holding exactly one token, followed by at most one combined
group; the tokens of the combined group are, in this order and each at most once, the plane
token, the motion-mode token, `X`, `Y`, `Z`, `I`, `J`, `K` and the turn count `P`. Each
group and each token is present exactly when its rule requires it:
the spindle group when the spindle pair differs from that of the last record that is not
Initial; `M9`, `M8`, `M7` by the tests of lines 75-86 on the remembered coolant flags (the
locals `floodCoolant`, `mistCoolant` when the record is reached); `F` and `S` when the mode
is not Rapid and the value differs from that of the last record that is neither Initial nor
Rapid; the plane token when the plane differs from the last one; the mode token for an arc,
after a spindle or coolant change, or when the mode differs from the last one; `X`, `Y`, `Z`
when the coordinate differs from the last one; `I`, `J`, `K` for an arc when not 0 and `P`
for an arc when `rot ≠ 1`, carrying `float64(rot)`; the combined group when it holds a token.
The plane token carries 17, 18 or 19 for the planes XY, XZ, YZ and the mode token carries
0, 1, 2 or 3. -/
theorem emission_order (pre : List Position) (r : Position)
    (h : r.state.moveMode ≠ moveModeInitial) :
    (∃ sp c9 c87 fe ss mv : List Block, ∃ pl mo x y z i j k p : List Node,
      emittedFor pre r = sp ++ c9 ++ c87 ++ fe ++ ss ++ mv ∧
      sp = (if (r.state.spindleEnabled, r.state.spindleClockwise) ≠ lastSpindle pre then
          [{ Nodes := [Node.Word 'M' (if r.state.spindleEnabled = true then
            (if r.state.spindleClockwise = true then 3 else 4) else 5)] }] else []) ∧
      c9 = (if ((exportLoop pre).floodCoolant = true ∧ r.state.floodCoolant = false) ∨
            ((exportLoop pre).mistCoolant = true ∧ r.state.mistCoolant = false) then
          [{ Nodes := [Node.Word 'M' 9] }] else []) ∧
      c87 = (if r.state.floodCoolant ≠ (exportLoop pre).floodCoolant ∨
            r.state.mistCoolant ≠ (exportLoop pre).mistCoolant then
          (if r.state.floodCoolant = true then [{ Nodes := [Node.Word 'M' 8] }]
            else if r.state.mistCoolant = true then [{ Nodes := [Node.Word 'M' 7] }] else [])
          else []) ∧
      fe = (if r.state.moveMode ≠ moveModeRapid ∧ r.state.feedrate ≠ lastFeed pre then
          [{ Nodes := [Node.Word 'F' r.state.feedrate] }] else []) ∧
      ss = (if r.state.moveMode ≠ moveModeRapid ∧ r.state.spindleSpeed ≠ lastSpeed pre then
          [{ Nodes := [Node.Word 'S' r.state.spindleSpeed] }] else []) ∧
      mv = (if pl ++ mo ++ x ++ y ++ z ++ i ++ j ++ k ++ p = [] then []
          else [{ Nodes := pl ++ mo ++ x ++ y ++ z ++ i ++ j ++ k ++ p }]) ∧
      pl = (if movePlaneCode r.state.movePlane ≠ lastPlaneCode pre then
          [Node.Word 'G' (movePlaneCode r.state.movePlane)] else []) ∧
      mo = (if (r.state.moveMode = moveModeCWArc ∨ r.state.moveMode = moveModeCCWArc) ∨
            (r.state.spindleEnabled, r.state.spindleClockwise) ≠ lastSpindle pre ∨
            (r.state.floodCoolant ≠ (exportLoop pre).floodCoolant ∨
              r.state.mistCoolant ≠ (exportLoop pre).mistCoolant) ∨
            moveModeCode r.state.moveMode ≠ lastModeCode pre then
          [Node.Word 'G' (moveModeCode r.state.moveMode)] else []) ∧
      x = (if r.x ≠ (lastMovePoint pre).1 then [Node.Word 'X' r.x] else []) ∧
      y = (if r.y ≠ (lastMovePoint pre).2.1 then [Node.Word 'Y' r.y] else []) ∧
      z = (if r.z ≠ (lastMovePoint pre).2.2 then [Node.Word 'Z' r.z] else []) ∧
      i = (if (r.state.moveMode = moveModeCWArc ∨ r.state.moveMode = moveModeCCWArc) ∧
            r.i ≠ 0 then [Node.Word 'I' r.i] else []) ∧
      j = (if (r.state.moveMode = moveModeCWArc ∨ r.state.moveMode = moveModeCCWArc) ∧
            r.j ≠ 0 then [Node.Word 'J' r.j] else []) ∧
      k = (if (r.state.moveMode = moveModeCWArc ∨ r.state.moveMode = moveModeCCWArc) ∧
            r.k ≠ 0 then [Node.Word 'K' r.k] else []) ∧
      p = (if (r.state.moveMode = moveModeCWArc ∨ r.state.moveMode = moveModeCCWArc) ∧
            r.rot ≠ 1 then [Node.Word 'P' (float64OfInt r.rot)] else [])) ∧
    (r.state.movePlane ≠ planeOther →
      movePlaneCode r.state.movePlane = 17 ∨ movePlaneCode r.state.movePlane = 18 ∨
        movePlaneCode r.state.movePlane = 19) ∧
    (moveModeCode r.state.moveMode = 0 ∨ moveModeCode r.state.moveMode = 1 ∨
      moveModeCode r.state.moveMode = 2 ∨ moveModeCode r.state.moveMode = 3) := by
  refine ⟨?_, ?_, ?_⟩
  · have hs := spindleChanged_iff pre r
    have hfeed := exportLoop_feed pre
    have hpt := exportLoop_point pre
    have hpl := (exportLoop_mode_plane pre).2
    have hx : (exportLoop pre).lastX = (lastMovePoint pre).1 := congrArg Prod.fst hpt
    have hy : (exportLoop pre).lastY = (lastMovePoint pre).2.1 :=
      congrArg (fun q => q.2.1) hpt
    have hz : (exportLoop pre).lastZ = (lastMovePoint pre).2.2 :=
      congrArg (fun q => q.2.2) hpt
    refine ⟨spindleGroups r.state (exportLoop pre), _, _,
      feedGroups r.state (exportLoop pre), speedGroups r.state (exportLoop pre),
      moveGroups r (exportLoop pre),
      planeTokens r.state (exportLoop pre), modeTokens r.state (exportLoop pre),
      _, _, _, _, _, _, _, ?_, ?_, rfl, rfl, ?_, ?_, ?_, ?_, ?_, rfl, rfl, rfl, rfl, rfl,
      rfl, rfl⟩
    · rw [emittedFor_eq, if_neg h]
      have hc : coolantGroups r.state (exportLoop pre) =
          (if ((exportLoop pre).floodCoolant = true ∧ r.state.floodCoolant = false) ∨
              ((exportLoop pre).mistCoolant = true ∧ r.state.mistCoolant = false) then
            [({ Nodes := [Node.Word 'M' 9] } : Block)] else []) ++
          (if r.state.floodCoolant ≠ (exportLoop pre).floodCoolant ∨
              r.state.mistCoolant ≠ (exportLoop pre).mistCoolant then
            (if r.state.floodCoolant = true then [({ Nodes := [Node.Word 'M' 8] } : Block)]
              else if r.state.mistCoolant = true then [{ Nodes := [Node.Word 'M' 7] }]
              else [])
            else []) := by
        unfold coolantGroups coolantChanged single
        rcases Bool.eq_false_or_eq_true (exportLoop pre).floodCoolant with ha | ha <;>
          rcases Bool.eq_false_or_eq_true (exportLoop pre).mistCoolant with hb | hb <;>
          rcases Bool.eq_false_or_eq_true r.state.floodCoolant with hc | hc <;>
          rcases Bool.eq_false_or_eq_true r.state.mistCoolant with hd | hd <;>
          simp [ha, hb, hc, hd]
      simp only [stepGroups, modalGroups, hc, List.append_assoc]
    · unfold spindleGroups spindleCode single
      by_cases hc : spindleChanged r.state (exportLoop pre)
      · rw [if_pos hc, if_pos (hs.mp hc)]
      · rw [if_neg hc, if_neg (fun h' => hc (hs.mpr h'))]
    · unfold feedGroups single
      rw [hfeed.1]
    · unfold speedGroups single
      rw [hfeed.2]
    · unfold moveGroups
      rw [moveTokens_pieces, hx, hy, hz]
      rfl
    · unfold planeTokens
      rw [hpl]
    · exact modeTokens_eq pre r
  · intro hp
    cases hpl : r.state.movePlane <;> simp [movePlaneCode, hpl] at hp ⊢
  · cases hm : r.state.moveMode <;> simp [moveModeCode]

/-- Witness of C14: the groups emitted for `spindleMove` after `linearMove` are `M3` and a
combined group holding only `G1`. -/
theorem emission_order_witness :
    spindleMove.state.moveMode ≠ moveModeInitial ∧
    ∃ sp c9 c87 fe ss mv : List Block,
      emittedFor [linearMove] spindleMove = sp ++ c9 ++ c87 ++ fe ++ ss ++ mv ∧
      sp = [{ Nodes := [Node.Word 'M' 3] }] ∧ c9 = [] ∧ c87 = [] ∧ fe = [] ∧ ss = [] ∧
      mv = [{ Nodes := [Node.Word 'G' 1] }] := by
  refine ⟨by decide, ?_⟩
  obtain ⟨sp, c9, c87, fe, ss, mv, pl, mo, x, y, z, i, j, k, p, he, hsp, h9, h87, hfe, hss,
      hmv, hpl, hmo, hx, hy, hz, hi, hj, hk, hp⟩ :=
    (emission_order [linearMove] spindleMove (by decide)).1
  have epl : pl = [] := by rw [hpl]; decide
  have emo : mo = [Node.Word 'G' 1] := by rw [hmo]; decide
  have ex : x = [] := by rw [hx]; decide
  have ey : y = [] := by rw [hy]; decide
  have ez : z = [] := by rw [hz]; decide
  have ei : i = [] := by rw [hi]; decide
  have ej : j = [] := by rw [hj]; decide
  have ek : k = [] := by rw [hk]; decide
  have ep : p = [] := by rw [hp]; decide
  refine ⟨sp, c9, c87, fe, ss, mv, he, ?_, ?_, ?_, ?_, ?_, ?_⟩
  · rw [hsp]; decide
  · rw [h9]; decide
  · rw [h87]; decide
  · rw [hfe]; decide
  · rw [hss]; decide
  · rw [hmv, epl, emo, ex, ey, ez, ei, ej, ek, ep]
    decide

/-! ## Forward-only assembly and non-empty groups -/

theorem foldl_exportStep_doc (trace : List Position) (st : ExportState) :
    ∃ ext, (trace.foldl exportStep st).doc.Blocks = st.doc.Blocks ++ ext ∧
      ∀ b ∈ ext, b.Nodes ≠ [] := by
  induction trace generalizing st with
  | nil => exact ⟨[], by simp, by simp⟩
  | cons r rest ih =>
    obtain ⟨ext, he, hne⟩ := ih (exportStep st r)
    rw [List.foldl_cons, he, exportStep_eq]
    by_cases h : r.state.moveMode = moveModeInitial
    · exact ⟨ext, by simp [h], hne⟩
    · refine ⟨stepGroups r st ++ ext, by simp [h, stepState], ?_⟩
      intro b hb
      rw [List.mem_append] at hb
      rcases hb with hb | hb
      · simp only [stepGroups, List.mem_append] at hb
        rcases hb with hb | hb
        · obtain ⟨c, v, hc, _⟩ := modalGroups_standalone r st b hb
          simp [hc]
        · unfold moveGroups at hb
          split_ifs at hb with hm
          · simp at hb
          · simp only [List.mem_singleton] at hb
            subst hb
            exact hm
      · exact hne b hb

theorem exportLoop_append_list (p s : List Position) :
    exportLoop (p ++ s) = s.foldl exportStep (exportLoop p) := by
  simp [exportLoop, List.foldl_append]

/-- C15 (forward-only assembly). For every trace `p ++ s` and its prefix `p`, the sequence
of groups of `Export p` is a prefix of the sequence of groups of `Export (p ++ s)`:
processing the later records `s` only appends groups. -/
theorem forward_only (p s : List Position) :
    (Export p).Blocks <+: (Export (p ++ s)).Blocks := by
  obtain ⟨ext, he, _⟩ := foldl_exportStep_doc s (exportLoop p)
  refine ⟨ext, ?_⟩
  unfold Export Machine.Export
  rw [exportLoop_append_list]
  exact he.symm

/-- The `moveBlock` of an iteration holds the tokens named by the closed form. -/
theorem moveBlockOf_eq (pre : List Position) (r : Position) :
    moveBlockOf pre r = { Nodes := moveTokens r (exportLoop pre) } := by
  generalize hst : exportLoop pre = st
  have hm : (if coolantChanged r.state st then (-1 : ℚ)
      else if spindleChanged r.state st then -1 else st.lastMoveMode)
      = modalMoveMode r.state st := by
    unfold modalMoveMode
    by_cases h1 : spindleChanged r.state st <;> by_cases h2 : coolantChanged r.state st <;>
      simp [h1, h2]
  simp only [moveBlockOf, hst, handleSpindle_eq, handleCoolant_eq, handleFeedSpeed_eq,
    buildMoveBlock_eq]
  simp only [moveTokens, planeTokens, modeTokens, coordTokens, coolantChanged] at hm ⊢
  simp only [hm, List.append_assoc]

/-- C16 (no empty groups). Every group of the document returned by `Export` holds at least
one token; and a record whose `moveBlock` received no plane, mode, coordinate or arc token
contributes no combined group: the groups emitted for it are all standalone `M`/`F`/`S`
groups. -/
theorem no_empty_groups (trace pre : List Position) (r : Position) :
    (∀ b ∈ (Export trace).Blocks, 0 < b.Nodes.length) ∧
    ((moveBlockOf pre r).Nodes = [] → ∀ b ∈ emittedFor pre r, IsStandalone b) := by
  constructor
  · intro b hb
    obtain ⟨ext, he, hne⟩ := foldl_exportStep_doc trace exportInit
    have hb' : b ∈ exportInit.doc.Blocks ++ ext := by
      rw [← he]
      exact hb
    rw [List.mem_append] at hb'
    rcases hb' with hb' | hb'
    · rw [exportInit_doc] at hb'
      simp only [preamble, List.mem_cons, List.mem_singleton, List.not_mem_nil, or_false] at hb'
      rcases hb' with hb' | hb' <;> subst hb' <;> simp
    · exact List.length_pos.mpr (hne b hb')
  · intro hm b hb
    rw [moveBlockOf_eq] at hm
    have hm' : moveTokens r (exportLoop pre) = [] := hm
    rw [emittedFor_eq] at hb
    split_ifs at hb
    · simp at hb
    · simp only [stepGroups, moveGroups, hm', if_true, List.append_nil] at hb
      exact modalGroups_standalone r _ b hb

/-- Witness of C16: `fasterMove` right after `linearMove` has an empty `moveBlock`; the only
group emitted for it is the standalone group `F200`. -/
theorem no_empty_groups_witness :
    (moveBlockOf [linearMove] fasterMove).Nodes = [] ∧
    emittedFor [linearMove] fasterMove = [{ Nodes := [Node.Word 'F' 200] }] ∧
    (∀ b ∈ (Export [linearMove, fasterMove]).Blocks, 0 < b.Nodes.length) ∧
    (∀ b ∈ emittedFor [linearMove] fasterMove, IsStandalone b) :=
  ⟨by decide, by decide,
    (no_empty_groups [linearMove, fasterMove] [linearMove] fasterMove).1,
    (no_empty_groups [linearMove, fasterMove] [linearMove] fasterMove).2 (by decide)⟩

/-! ## Records outside the enumerations -/

/-- Counterexample to C17 as stated: on the trace `[linearMove, otherMove]`, whose second
record has a motion mode that is none of the five constants, `Export` returns a document,
and the group emitted for that record holds the motion-mode token `G0`; likewise the group
emitted for `otherPlaneMove`, whose plane is none of the three constants, holds the plane
token `G0`. -/
theorem fail_fast_counterexample :
    otherMove.state.moveMode = moveModeOther ∧
    Export [linearMove, otherMove] =
      { Blocks :=
          [{ Nodes := [Node.Comment "Exported by gocnc/vm" false] },
           { Nodes := [Node.Word 'G' 21, Node.Word 'G' 90, Node.Word 'G' 94] },
           { Nodes := [Node.Word 'F' 100] },
           { Nodes := [Node.Word 'G' 17, Node.Word 'G' 1, Node.Word 'X' 10] },
           { Nodes := [Node.Word 'G' 0, Node.Word 'X' 20] }] } ∧
    emittedFor [linearMove] otherMove = [{ Nodes := [Node.Word 'G' 0, Node.Word 'X' 20] }] ∧
    otherPlaneMove.state.movePlane = planeOther ∧
    emittedFor [linearMove] otherPlaneMove =
      [{ Nodes := [Node.Word 'G' 0, Node.Word 'X' 20] }] := by
  decide

/-- C17 (malformed input, amended). `Export` has no abort path. A record whose motion mode
is none of the five constants is processed with numeric mode 0: directly after a Linear,
ArcCW or ArcCCW record its groups end with a combined group holding the token `G0`. A record
that is not Initial and whose plane is none of the three constants is processed with numeric
plane 0: directly after a record that is not Initial and has plane XY, XZ or YZ, its groups
end with a combined group whose first token is `G0`. -/
theorem malformed_processed (pre : List Position) (a r : Position) :
    ((a.state.moveMode = moveModeLinear ∨ a.state.moveMode = moveModeCWArc ∨
        a.state.moveMode = moveModeCCWArc) →
      r.state.moveMode = moveModeOther →
      ∃ modal combined, emittedFor (pre ++ [a]) r = modal ++ [combined] ∧
        (∀ b ∈ modal, IsStandalone b) ∧ Node.Word 'G' 0 ∈ combined.Nodes) ∧
    (a.state.moveMode ≠ moveModeInitial → a.state.movePlane ≠ planeOther →
      r.state.moveMode ≠ moveModeInitial → r.state.movePlane = planeOther →
      ∃ modal combined, emittedFor (pre ++ [a]) r = modal ++ [combined] ∧
        (∀ b ∈ modal, IsStandalone b) ∧ combined.Nodes.head? = some (Node.Word 'G' 0)) := by
  constructor
  · intro ha hr
    have hai : a.state.moveMode ≠ moveModeInitial := by
      rcases ha with ha | ha | ha <;> simp [ha]
    have hri : r.state.moveMode ≠ moveModeInitial := by simp [hr]
    rw [emittedFor_eq, if_neg hri, exportLoop_append_move pre a hai]
    generalize exportLoop pre = st
    have hlast : (stepState st a).lastMoveMode ≠ 0 := by
      rcases ha with ha | ha | ha <;> simp [stepState, ha, moveModeCode]
    have hmm : (0 : ℚ) ≠ modalMoveMode r.state (stepState st a) := by
      unfold modalMoveMode
      split_ifs
      · norm_num
      · exact Ne.symm hlast
    have hmode : modeTokens r.state (stepState st a) = [Node.Word 'G' 0] := by
      unfold modeTokens
      rw [hr]
      simp only [moveModeCode]
      rw [if_pos (Or.inr hmm)]
    have hne : moveTokens r (stepState st a) ≠ [] := by simp [moveTokens, hmode]
    exact ⟨modalGroups r (stepState st a), { Nodes := moveTokens r (stepState st a) },
      by simp [stepGroups, moveGroups, hne], modalGroups_standalone r _,
      by simp [moveTokens, hmode]⟩
  · intro hai hap hri hrp
    rw [emittedFor_eq, if_neg hri, exportLoop_append_move pre a hai]
    generalize exportLoop pre = st
    have hlast : (0 : ℚ) ≠ (stepState st a).lastMovePlane := by
      cases hpl : a.state.movePlane <;> simp [stepState, hpl, movePlaneCode] at hap ⊢
    have hplane : planeTokens r.state (stepState st a) = [Node.Word 'G' 0] := by
      unfold planeTokens
      rw [hrp]
      simp only [movePlaneCode]
      rw [if_pos hlast]
    have hne : moveTokens r (stepState st a) ≠ [] := by simp [moveTokens, hplane]
    exact ⟨modalGroups r (stepState st a), { Nodes := moveTokens r (stepState st a) },
      by simp [stepGroups, moveGroups, hne], modalGroups_standalone r _,
      by simp [moveTokens, hplane]⟩

/-- Witness of C17: `otherMove` and `otherPlaneMove` after the Linear record `linearMove`
with plane XY. -/
theorem malformed_processed_witness :
    (linearMove.state.moveMode = moveModeLinear ∧ otherMove.state.moveMode = moveModeOther ∧
      ∃ modal combined, emittedFor ([] ++ [linearMove]) otherMove = modal ++ [combined] ∧
        (∀ b ∈ modal, IsStandalone b) ∧ Node.Word 'G' 0 ∈ combined.Nodes) ∧
    (linearMove.state.movePlane ≠ planeOther ∧ otherPlaneMove.state.movePlane = planeOther ∧
      ∃ modal combined, emittedFor ([] ++ [linearMove]) otherPlaneMove = modal ++ [combined] ∧
        (∀ b ∈ modal, IsStandalone b) ∧
        combined.Nodes.head? = some (Node.Word 'G' 0)) :=
  ⟨⟨by decide, by decide,
      (malformed_processed [] linearMove otherMove).1 (Or.inl (by decide)) (by decide)⟩,
    ⟨by decide, by decide,
      (malformed_processed [] linearMove otherPlaneMove).2 (by decide) (by decide) (by decide)
        (by decide)⟩⟩

/-! ## The coolant-off command is never emitted -/

/-- With both remembered coolant flags false, no group of an iteration holds `M9`. -/
theorem stepGroups_no_M9 (r : Position) (st : ExportState)
    (hf : st.floodCoolant = false) (hm : st.mistCoolant = false) :
    ∀ b ∈ stepGroups r st, Node.Word 'M' 9 ∉ b.Nodes := by
  intro b hb hn
  simp only [stepGroups, modalGroups, List.mem_append] at hb
  rcases hb with (((hb | hb) | hb) | hb) | hb
  · unfold spindleGroups spindleCode at hb
    split_ifs at hb <;> simp [single] at hb <;> subst hb <;> simp at hn
  · simp only [coolantGroups, hf, hm, Bool.false_eq_true, false_and, or_self, if_false,
      List.nil_append] at hb
    split_ifs at hb <;> simp [single] at hb <;> subst hb <;> simp at hn
  · unfold feedGroups at hb
    split_ifs at hb <;> simp [single] at hb
    subst hb
    simp at hn
  · unfold speedGroups at hb
    split_ifs at hb <;> simp [single] at hb
    subst hb
    simp at hn
  · unfold moveGroups at hb
    split_ifs at hb
    · simp at hb
    · simp only [List.mem_singleton] at hb
      subst hb
      obtain ⟨c, hc, hl⟩ := letter_moveTokens r st _ hn
      simp only [letter, Option.some.injEq] at hc
      subst hc
      simp at hl

/-- C18 (no coolant-off token). For every trace, no group of the document returned by
`Export` holds the token `M9`: the remembered flood and mist flags are never assigned and
keep their initial value false, so the condition that guards the `M9` emission is never
satisfied. -/
theorem no_coolant_off (trace : List Position) :
    (∀ b ∈ (Export trace).Blocks, Node.Word 'M' 9 ∉ b.Nodes) ∧
    (exportLoop trace).floodCoolant = false ∧ (exportLoop trace).mistCoolant = false := by
  refine ⟨?_, exportLoop_floodCoolant trace, exportLoop_mistCoolant trace⟩
  induction trace using List.reverseRecOn with
  | nil => decide
  | append_singleton pre r ih =>
    intro b hb
    rw [Export_append, List.mem_append] at hb
    rcases hb with hb | hb
    · exact ih b hb
    · rw [emittedFor_eq] at hb
      split_ifs at hb
      · simp at hb
      · exact stepGroups_no_M9 r _ (exportLoop_floodCoolant pre) (exportLoop_mistCoolant pre)
          b hb

/-! ## Repeated plain moves -/

/-- Processing a record that is not Initial, not an arc and has both coolant flags off a
second time changes nothing. -/
theorem exportStep_repeat (st : ExportState) (r : Position)
    (hst : st.floodCoolant = false ∧ st.mistCoolant = false)
    (h : r.state.moveMode ≠ moveModeInitial)
    (hcw : r.state.moveMode ≠ moveModeCWArc) (hccw : r.state.moveMode ≠ moveModeCCWArc)
    (hflood : r.state.floodCoolant = false) (hmist : r.state.mistCoolant = false) :
    exportStep (exportStep st r) r = exportStep st r := by
  simp only [exportStep_eq, if_neg h]
  have hg := stepGroups_repeat st r r hst rfl rfl rfl rfl rfl rfl hflood hmist rfl rfl rfl
    hcw hccw
  have hd : (stepState (stepState st r) r).doc = (stepState st r).doc := by
    show ({ Blocks := (stepState st r).doc.Blocks ++ stepGroups r (stepState st r) } : Document)
      = (stepState st r).doc
    rw [hg, List.append_nil]
  have h1 : (stepState (stepState st r) r).lastFeedrate = (stepState st r).lastFeedrate := by
    by_cases hr : r.state.moveMode = moveModeRapid <;> simp [stepState, hr]
  have h2 : (stepState (stepState st r) r).lastSpindleSpeed
      = (stepState st r).lastSpindleSpeed := by
    by_cases hr : r.state.moveMode = moveModeRapid <;> simp [stepState, hr]
  calc stepState (stepState st r) r
      = { stepState st r with
          lastFeedrate := (stepState (stepState st r) r).lastFeedrate
          lastSpindleSpeed := (stepState (stepState st r) r).lastSpindleSpeed
          doc := (stepState (stepState st r) r).doc } := rfl
    _ = stepState st r := by rw [h1, h2, hd]

/-- C19 (idempotence of repeated plain moves). For every trace and every record `r` in it
that is not Initial, not an arc and has both coolant flags off, inserting a copy of `r`
immediately after `r` leaves the document returned by `Export` unchanged. -/
theorem repeat_idempotent (pre post : List Position) (r : Position)
    (h : r.state.moveMode ≠ moveModeInitial)
    (hcw : r.state.moveMode ≠ moveModeCWArc) (hccw : r.state.moveMode ≠ moveModeCCWArc)
    (hflood : r.state.floodCoolant = false) (hmist : r.state.mistCoolant = false) :
    Export (pre ++ r :: r :: post) = Export (pre ++ r :: post) := by
  unfold Export Machine.Export
  rw [exportLoop_append_list, exportLoop_append_list, List.foldl_cons, List.foldl_cons,
    List.foldl_cons,
    exportStep_repeat _ r ⟨exportLoop_floodCoolant pre, exportLoop_mistCoolant pre⟩
      h hcw hccw hflood hmist]

/-- Witness of C19: doubling `spindleMove` between `linearMove` and `fasterMove`. -/
theorem repeat_idempotent_witness :
    spindleMove.state.moveMode ≠ moveModeInitial ∧
    spindleMove.state.moveMode ≠ moveModeCWArc ∧
    spindleMove.state.moveMode ≠ moveModeCCWArc ∧
    spindleMove.state.floodCoolant = false ∧ spindleMove.state.mistCoolant = false ∧
    Export ([linearMove] ++ spindleMove :: spindleMove :: [fasterMove])
      = Export ([linearMove] ++ spindleMove :: [fasterMove]) :=
  ⟨by decide, by decide, by decide, by decide, by decide,
    repeat_idempotent [linearMove] [fasterMove] spindleMove (by decide) (by decide)
      (by decide) (by decide) (by decide)⟩

/-! ## The first move -/

theorem exportLoop_of_initial (pre : List Position)
    (h : ∀ p ∈ pre, p.state.moveMode = moveModeInitial) : exportLoop pre = exportInit := by
  unfold exportLoop
  rw [← foldl_exportStep_moves, moves_eq_nil_of_initial pre h]
  rfl

/-- C20 (first Rapid move). When the first record of a trace that is not Initial is a Rapid
move with `spindleEnabled` false, `spindleClockwise` false and both coolant flags off, the
groups emitted for it hold no motion-mode token: `G0` is not stated, because the remembered
motion mode starts at 0, the numeric code of Rapid; the only `G` word that can occur is the
plane token `G17`, `G18` or `G19`. -/
theorem first_rapid_no_mode_token (pre : List Position) (r : Position)
    (hpre : ∀ p ∈ pre, p.state.moveMode = moveModeInitial)
    (hr : r.state.moveMode = moveModeRapid)
    (hen : r.state.spindleEnabled = false) (hcw : r.state.spindleClockwise = false)
    (hflood : r.state.floodCoolant = false) (hmist : r.state.mistCoolant = false) :
    ∀ b ∈ emittedFor pre r,
      Node.Word 'G' 0 ∉ b.Nodes ∧
      ∀ v, Node.Word 'G' v ∈ b.Nodes → (v = 17 ∨ v = 18 ∨ v = 19) := by
  have hi : r.state.moveMode ≠ moveModeInitial := by simp [hr]
  have key : ∀ b ∈ emittedFor pre r, ∀ v, Node.Word 'G' v ∈ b.Nodes →
      (v = 17 ∨ v = 18 ∨ v = 19) := by
    intro b hb v hv
    rw [emittedFor_eq, if_neg hi, exportLoop_of_initial pre hpre] at hb
    have hsp : ¬ spindleChanged r.state exportInit := by
      simp [spindleChanged, hen, hcw, exportInit, shortBlock, ExportState.zero]
    have hco : ¬ coolantChanged r.state exportInit := by
      simp [coolantChanged, hflood, hmist, exportInit, shortBlock, ExportState.zero]
    have hmm : modalMoveMode r.state exportInit = 0 := by
      unfold modalMoveMode
      rw [if_neg (not_or.mpr ⟨hsp, hco⟩)]
      rfl
    have hmode : modeTokens r.state exportInit = [] := by
      unfold modeTokens
      rw [hmm, hr]
      simp [moveModeCode, isArc]
    have harc : arcTokens r = [] := by simp [arcTokens, isArc, hr]
    simp only [stepGroups, modalGroups, spindleGroups, coolantGroups, feedGroups, speedGroups,
      if_neg hsp, if_neg hco, hr, ne_eq, not_true_eq_false, false_and, if_false,
      List.nil_append, List.append_nil, moveGroups] at hb
    split_ifs at hb with he
    · simp at hb
    · simp only [List.mem_singleton] at hb
      subst hb
      simp only [moveTokens, hmode, harc, List.append_nil, List.mem_append, planeTokens,
        coordTokens] at hv
      rcases hv with hv | (hv | hv) | hv
      · split_ifs at hv <;> simp at hv
        subst hv
        cases hpl : r.state.movePlane <;> simp_all [movePlaneCode, exportInit, shortBlock,
          ExportState.zero]
      · split_ifs at hv <;> simp at hv
      · split_ifs at hv <;> simp at hv
      · split_ifs at hv <;> simp at hv
  intro b hb
  refine ⟨fun h0 => ?_, key b hb⟩
  rcases key b hb 0 h0 with h | h | h <;> norm_num at h

/-- Witness of C20: the trace `[rec0 moveModeInitial, rec0 moveModeRapid]`; the Rapid record
gets the single group `G17`. -/
theorem first_rapid_no_mode_token_witness :
    (∀ p ∈ [rec0 moveModeInitial], p.state.moveMode = moveModeInitial) ∧
    (rec0 moveModeRapid).state.moveMode = moveModeRapid ∧
    emittedFor [rec0 moveModeInitial] (rec0 moveModeRapid)
      = [{ Nodes := [Node.Word 'G' 17] }] ∧
    ∀ b ∈ emittedFor [rec0 moveModeInitial] (rec0 moveModeRapid),
      Node.Word 'G' 0 ∉ b.Nodes ∧
      ∀ v, Node.Word 'G' v ∈ b.Nodes → (v = 17 ∨ v = 18 ∨ v = 19) :=
  ⟨by decide, by decide, by decide,
    first_rapid_no_mode_token [rec0 moveModeInitial] (rec0 moveModeRapid) (by decide)
      (by decide) (by decide) (by decide) (by decide) (by decide)⟩

end Gocnc
